import Mathlib

set_option maxRecDepth 40000

namespace Pylet

/-! Shallow embedding of the Pylet language pipeline
    (src/lexer.py, src/parser.py, src/semantic.py, src/interpreter.py).

    Python machine state is made explicit: dicts become association lists,
    exceptions become `Except`, and the unbounded recursion of the tree
    walkers is driven by a fuel parameter (running out of fuel corresponds
    to Python's `RecursionError`). -/

/-- Python exceptions distinguished by class. `runtimeError` is the class the
    interpreter raises itself; the remaining constructors are host-level
    exceptions escaping from native operations (`TypeError`, `KeyError`, ...).
    `SyntaxError` is what the parser raises. -/
inductive PyErr where
  | runtimeError (msg : String)
  | typeError (msg : String)
  | valueError (msg : String)
  | keyError (msg : String)
  | indexError (msg : String)
  | zeroDivisionError (msg : String)
  | eofError (msg : String)
  | syntaxError (msg : String)
  | recursionError
deriving DecidableEq, Repr

/-- Classifier used to state which exception class a failure belongs to. -/
def isRuntimeError : PyErr → Bool
  | .runtimeError _ => true
  | _ => false

/-! ## Lexer (src/lexer.py)

    The source tokenizes with one `re` alternation tried at each position in
    the order COMMENT, NUMBER, STRING, ID, OP, SEP, NEWLINE, WS, MISMATCH
    (first alternative wins, each alternative greedy).  Each alternative is
    reproduced below as a direct matcher on `List Char`. -/

/-- `keywords` set from src/lexer.py. -/
def keywords : List String :=
  ["let", "mut", "const", "fn", "return", "if", "else", "while", "for",
   "break", "continue", "true", "false", "null", "match", "case"]

/-- `functions` set (built-in function names) from src/lexer.py. -/
def builtinNames : List String :=
  ["print", "input", "to_string", "to_int", "to_float", "abs", "min", "max",
   "sqrt", "pow", "len", "push", "pop", "assert", "panic"]

/-- `operators` list from src/lexer.py; multi-character operators first, and
    `OP` tries them in exactly this order. -/
def operators : List String :=
  ["==", "!=", "<=", ">=", "++", "--", "&&", "||",
   "+", "-", "*", "/", "%", "=", "<", ">", "!"]

/-- Does the first list occur as a leading segment of the second? -/
def leadsWith : List Char → List Char → Bool
  | [], _ => true
  | _, [] => false
  | a :: as_, b :: bs => a = b && leadsWith as_ bs

/-- `//[^\n]*` and `/\*.*?\*/` (DOTALL, `.*?` non-greedy, so the block form
    ends at the first `*/`; an unterminated block comment fails to match). -/
def matchComment : List Char → Option (List Char × List Char)
  | '/' :: '/' :: rest =>
      let body := rest.takeWhile (fun c => c ≠ '\n')
      some ('/' :: '/' :: body, rest.dropWhile (fun c => c ≠ '\n'))
  | '/' :: '*' :: rest =>
      (scanBlock rest).map (fun p => ('/' :: '*' :: p.1, p.2))
  | _ => none
where
  /-- Scan to the first `*/`, inclusively. -/
  scanBlock : List Char → Option (List Char × List Char)
    | '*' :: '/' :: rest => some (['*', '/'], rest)
    | c :: rest => (scanBlock rest).map (fun p => (c :: p.1, p.2))
    | [] => none

/-- Greedy digit run plus optional `.digits` suffix: the `\d+(\.\d+)?` part
    of the NUMBER pattern (the group is dropped when `.` is not followed by
    a digit). Fails when no leading digit is present. -/
def numTail (cs : List Char) : Option (List Char × List Char) :=
  let ds := cs.takeWhile Char.isDigit
  if ds.isEmpty then none
  else
    match cs.dropWhile Char.isDigit with
    | '.' :: r2 =>
        let fs := r2.takeWhile Char.isDigit
        if fs.isEmpty then some (ds, '.' :: r2)
        else some (ds ++ '.' :: fs, r2.dropWhile Char.isDigit)
    | r => some (ds, r)

/-- `[-+]?\d+(\.\d+)?`: an optional sign is absorbed only when digits
    follow it directly. -/
def matchNumber : List Char → Option (List Char × List Char)
  | [] => none
  | c :: cs =>
      if c = '-' ∨ c = '+' then
        (numTail cs).map (fun p => (c :: p.1, p.2))
      else numTail (c :: cs)

/-- Body scan for `"([^"\\]|\\.)*"` (and the single-quote twin): a backslash
    escapes the next character (any character, DOTALL), the run ends at the
    first unescaped closing quote, and a missing closing quote fails. -/
def scanStr (q : Char) : List Char → Option (List Char × List Char)
  | '\\' :: c :: rest => (scanStr q rest).map (fun p => ('\\' :: c :: p.1, p.2))
  | c :: rest =>
      if c = q then some ([c], rest)
      else if c = '\\' then none
      else (scanStr q rest).map (fun p => (c :: p.1, p.2))
  | [] => none

def matchString : List Char → Option (List Char × List Char)
  | c :: rest =>
      if c = '"' ∨ c = '\'' then
        (scanStr c rest).map (fun p => (c :: p.1, p.2))
      else none
  | [] => none

/-- `[A-Za-z_]\w*` (ASCII, as the lexed sources are ASCII). -/
def isIdStart (c : Char) : Bool := c.isAlpha || c = '_'

def isIdChar (c : Char) : Bool := c.isAlphanum || c = '_'

def matchId : List Char → Option (List Char × List Char)
  | c :: cs =>
      if isIdStart c then
        some (c :: cs.takeWhile isIdChar, cs.dropWhile isIdChar)
      else none
  | [] => none

/-- The OP alternation, trying the operator strings in their listed order. -/
def matchOp (cs : List Char) : Option (List Char × List Char) :=
  match operators.find? (fun op => leadsWith op.data cs) with
  | some op => some (op.data, cs.drop op.data.length)
  | none => none

/-- `[\(\)\{\}\[\];,\.]`. -/
def matchSep : List Char → Option (List Char × List Char)
  | c :: cs =>
      if c = '(' ∨ c = ')' ∨ c = '{' ∨ c = '}' ∨ c = '[' ∨ c = ']' ∨
         c = ';' ∨ c = ',' ∨ c = '.' then some ([c], cs)
      else none
  | [] => none

/-- `[ \t]+`. -/
def matchWs : List Char → Option (List Char × List Char)
  | c :: cs =>
      if c = ' ' ∨ c = '\t' then
        some (c :: cs.takeWhile (fun d => d = ' ' ∨ d = '\t'),
              cs.dropWhile (fun d => d = ' ' ∨ d = '\t'))
      else none
  | [] => none

/-- One step of the compiled alternation `tok_regex`: the first matching
    alternative wins; `MISMATCH` (`.` with DOTALL) catches any remaining
    character, so the result is `none` exactly on empty input. -/
def scanToken (cs : List Char) : Option (String × List Char × List Char) :=
  match matchComment cs with
  | some (m, r) => some ("COMMENT", m, r)
  | none =>
  match matchNumber cs with
  | some (m, r) => some ("NUMBER", m, r)
  | none =>
  match matchString cs with
  | some (m, r) => some ("STRING", m, r)
  | none =>
  match matchId cs with
  | some (m, r) => some ("ID", m, r)
  | none =>
  match matchOp cs with
  | some (m, r) => some ("OP", m, r)
  | none =>
  match matchSep cs with
  | some (m, r) => some ("SEP", m, r)
  | none =>
  match cs with
  | '\n' :: r => some ("NEWLINE", ['\n'], r)
  | _ =>
  match matchWs cs with
  | some (m, r) => some ("WS", m, r)
  | none =>
  match cs with
  | c :: r => some ("MISMATCH", [c], r)
  | [] => none

/-- A `(kind, text, line, column)` token tuple. -/
structure Token where
  kind : String
  text : String
  line : Nat
  col : Nat
deriving DecidableEq, Repr

/-- The token actually appended for a match, following the `kind` dispatch
    in `lexer` (identifiers are split into KEYWORD/FUNCTION/IDENT). -/
def emitToken (kind : String) (text : String) (line col : Nat) : List Token :=
  if kind = "NUMBER" then [⟨"NUMBER", text, line, col⟩]
  else if kind = "ID" then
    if keywords.contains text then [⟨"KEYWORD", text, line, col⟩]
    else if builtinNames.contains text then [⟨"FUNCTION", text, line, col⟩]
    else [⟨"IDENT", text, line, col⟩]
  else if kind = "OP" then [⟨"OP", text, line, col⟩]
  else if kind = "SEP" then [⟨"SEP", text, line, col⟩]
  else if kind = "STRING" then [⟨"STRING", text, line, col⟩]
  else []

/-- The main loop of `lexer`: one regex match per step, a running
    line/column counter (`NEWLINE` resets the column to 0 before the
    uniform `col += len(value)` update), `MISMATCH` raises, and an EOF
    token is appended when input is exhausted. -/
def lexAux : Nat → List Char → Nat → Nat → List Token → Except PyErr (List Token)
  | 0, _, _, _, _ => .error .recursionError
  | fuel + 1, cs, line, col, acc =>
    match scanToken cs with
    | none => .ok (acc ++ [⟨"EOF", "", line, col⟩])
    | some (kind, m, rest) =>
        if kind = "MISMATCH" then
          .error (.runtimeError ("Unexpected character '" ++ String.mk m ++
            "' at line " ++ toString line ++ ", column " ++ toString col))
        else
          let line' := if kind = "NEWLINE" then line + 1 else line
          let colBase := if kind = "NEWLINE" then 0 else col
          lexAux fuel rest line' (colBase + m.length)
            (acc ++ emitToken kind (String.mk m) line col)

/-- `lexer(code)` from src/lexer.py. -/
def lexer (code : String) : Except PyErr (List Token) :=
  lexAux (code.length + 1) code.data 1 1 []

/-! Specification-side position tracking for claim C9: the true
    (line, column) of the character following a given prefix of the
    source, counting lines from 1 and columns from 1 and resetting the
    column after every newline. -/

/-- Fold a source prefix into the true (line, column) just after it. -/
def trueLC (cs : List Char) : Nat × Nat :=
  cs.foldl (fun lc c => if c = '\n' then (lc.1 + 1, 1) else (lc.1, lc.2 + 1)) (1, 1)

/-- Modelled from the spec: the lexer as the round-trip sentence of the spec
    demands it — identical tokenization, but every token (and the lexical
    error report) carries the true line/column of its first character,
    computed from the consumed prefix `pre`. -/
def lexTrueAux : Nat → List Char → List Char → List Token → Except PyErr (List Token)
  | 0, _, _, _ => .error .recursionError
  | fuel + 1, cs, pre, acc =>
    match scanToken cs with
    | none => .ok (acc ++ [⟨"EOF", "", (trueLC pre).1, (trueLC pre).2⟩])
    | some (kind, m, rest) =>
        if kind = "MISMATCH" then
          .error (.runtimeError ("Unexpected character '" ++ String.mk m ++
            "' at line " ++ toString (trueLC pre).1 ++ ", column " ++
            toString (trueLC pre).2))
        else
          lexTrueAux fuel rest (pre ++ m)
            (acc ++ emitToken kind (String.mk m) (trueLC pre).1 (trueLC pre).2)

def lexTrue (code : String) : Except PyErr (List Token) :=
  lexTrueAux (code.length + 1) code.data [] []

/-- Every match the lexer will make is either a newline token or stays on a
    single line (no embedded newline).  Block comments and string literals
    spanning several lines are exactly the matches violating this. -/
def singleLine : Nat → List Char → Bool
  | 0, _ => true
  | fuel + 1, cs =>
    match scanToken cs with
    | none => true
    | some (kind, m, rest) =>
        (kind = "NEWLINE" || !m.contains '\n') && singleLine fuel rest

/-! ## Parser (src/parser.py)

    `ASTNode(type_, value, children)` is a loosely typed variant: `type` is a
    string tag and `value` is whatever Python object the parser stored there
    (`None`, a string, a `(kind, name)` pair, a `(name, params)` pair, or a
    bool).  `NodeValue` is the union of those payload shapes. -/

inductive NodeValue where
  | vnone
  | vstr (s : String)
  | vbool (b : Bool)
  | vpair (a b : String)
  | vsig (name : String) (params : List String)
deriving DecidableEq, Repr

inductive ASTNode where
  | mk (type : String) (value : NodeValue) (children : List ASTNode)

def ASTNode.type : ASTNode → String
  | .mk t _ _ => t

def ASTNode.value : ASTNode → NodeValue
  | .mk _ v _ => v

def ASTNode.children : ASTNode → List ASTNode
  | .mk _ _ cs => cs

/-- `Parser.current`: the token at `pos`, or the padding EOF tuple. -/
def currentTok (tokens : List Token) (pos : Nat) : Token :=
  match tokens.drop pos with
  | t :: _ => t
  | [] => ⟨"EOF", "", 0, 0⟩

/-- `Parser.peek` with the default offset 1. -/
def peekTok (tokens : List Token) (pos : Nat) : Token :=
  currentTok tokens (pos + 1)

/-- `Parser.at_end`. -/
def atEnd (tokens : List Token) (pos : Nat) : Bool :=
  pos ≥ tokens.length || (currentTok tokens pos).kind = "EOF"

/-- `Parser.eat`: optional kind/text requirements (`none` skips the check,
    as falsy `type_`/`value` arguments do in the source). -/
def eat (tokens : List Token) (pos : Nat) (type? : Option String)
    (value? : Option String) : Except PyErr (Token × Nat) :=
  if atEnd tokens pos then .error (.syntaxError "Unexpected end of input")
  else
    let tok := currentTok tokens pos
    match type? with
    | some t =>
        if tok.kind ≠ t then
          .error (.syntaxError ("Expected " ++ t ++ ", got " ++ tok.kind ++
            " '" ++ tok.text ++ "' at line " ++ toString tok.line))
        else
          match value? with
          | some v =>
              if tok.text ≠ v then
                .error (.syntaxError ("Expected '" ++ v ++ "', got '" ++
                  tok.text ++ "' at line " ++ toString tok.line))
              else .ok (tok, pos + 1)
          | none => .ok (tok, pos + 1)
    | none =>
        match value? with
        | some v =>
            if tok.text ≠ v then
              .error (.syntaxError ("Expected '" ++ v ++ "', got '" ++
                tok.text ++ "' at line " ++ toString tok.line))
            else .ok (tok, pos + 1)
        | none => .ok (tok, pos + 1)

/-- `Parser.get_precedence` (note: `==`/`!=` sit at 3, the relational
    operators at 4). -/
def get_precedence (op : String) : Nat :=
  if op = "||" then 1
  else if op = "&&" then 2
  else if op = "==" then 3
  else if op = "!=" then 3
  else if op = "<" then 4
  else if op = ">" then 4
  else if op = "<=" then 4
  else if op = ">=" then 4
  else if op = "+" then 5
  else if op = "-" then 5
  else if op = "*" then 6
  else if op = "/" then 6
  else if op = "%" then 6
  else 0

def binOpNames : List String :=
  ["+", "-", "*", "/", "%", "==", "!=", "<", ">", "<=", ">=", "&&", "||"]

mutual

/-- `Parser.parse_binary_expr` (precedence climbing; the loop body of the
    `while True` is `parseBinLoop`). -/
def parse_binary_expr (tokens : List Token) : Nat → Nat → Nat →
    Except PyErr (ASTNode × Nat)
  | 0, _, _ => .error .recursionError
  | fuel + 1, minPrec, pos => do
      let (left, pos) ← parse_primary tokens fuel pos
      parseBinLoop tokens fuel minPrec left pos
termination_by structural fuel minPrec pos => fuel

def parseBinLoop (tokens : List Token) : Nat → Nat → ASTNode → Nat →
    Except PyErr (ASTNode × Nat)
  | 0, _, _, _ => .error .recursionError
  | fuel + 1, minPrec, left, pos =>
      let tok := currentTok tokens pos
      if tok.kind = "OP" ∧ binOpNames.contains tok.text then
        let prec := get_precedence tok.text
        if prec < minPrec then .ok (left, pos)
        else do
          let (opTok, pos) ← eat tokens pos (some "OP") none
          let (right, pos) ← parse_binary_expr tokens fuel (prec + 1) pos
          parseBinLoop tokens fuel minPrec
            (.mk "BinOp" (.vstr opTok.text) [left, right]) pos
      else .ok (left, pos)
termination_by structural fuel left pos => fuel

/-- `Parser.parse_primary`. -/
def parse_primary (tokens : List Token) : Nat → Nat →
    Except PyErr (ASTNode × Nat)
  | 0, _ => .error .recursionError
  | fuel + 1, pos =>
      let tok := currentTok tokens pos
      if tok.kind = "NUMBER" then do
        let (t, pos) ← eat tokens pos (some "NUMBER") none
        .ok (.mk "Number" (.vstr t.text) [], pos)
      else if tok.kind = "STRING" then do
        let (t, pos) ← eat tokens pos (some "STRING") none
        .ok (.mk "String" (.vstr t.text) [], pos)
      else if tok.kind = "KEYWORD" ∧ (tok.text = "true" ∨ tok.text = "false") then do
        let (t, pos) ← eat tokens pos (some "KEYWORD") none
        .ok (.mk "Bool" (.vbool (t.text = "true")) [], pos)
      else if tok.kind = "KEYWORD" ∧ tok.text = "null" then do
        let (_, pos) ← eat tokens pos (some "KEYWORD") none
        .ok (.mk "Null" .vnone [], pos)
      else if tok.kind = "IDENT" ∨ tok.kind = "FUNCTION" then do
        let (t, pos) ← eat tokens pos none none
        if (currentTok tokens pos).text = "(" then do
          let (args, pos) ← parseArguments tokens fuel pos
          .ok (.mk "Call" (.vstr t.text) args, pos)
        else .ok (.mk "Var" (.vstr t.text) [], pos)
      else if tok.kind = "SEP" ∧ tok.text = "(" then do
        let (_, pos) ← eat tokens pos (some "SEP") (some "(")
        let (expr, pos) ← parse_binary_expr tokens fuel 0 pos
        let (_, pos) ← eat tokens pos (some "SEP") (some ")")
        .ok (expr, pos)
      else if tok.kind = "OP" ∧ (tok.text = "+" ∨ tok.text = "-" ∨
          tok.text = "!" ∨ tok.text = "++" ∨ tok.text = "--") then do
        let (opTok, pos) ← eat tokens pos (some "OP") none
        let (operand, pos) ← parse_primary tokens fuel pos
        .ok (.mk "UnaryOp" (.vstr opTok.text) [operand], pos)
      else
        .error (.syntaxError ("Unexpected token " ++ tok.kind ++ " '" ++
          tok.text ++ "' at line " ++ toString tok.line ++ " in expression"))
termination_by structural fuel pos => fuel

/-- `Parser.arguments`. -/
def parseArguments (tokens : List Token) : Nat → Nat →
    Except PyErr (List ASTNode × Nat)
  | 0, _ => .error .recursionError
  | fuel + 1, pos => do
      let (_, pos) ← eat tokens pos (some "SEP") (some "(")
      if (currentTok tokens pos).text ≠ ")" then do
        let (arg, pos) ← parse_binary_expr tokens fuel 0 pos
        let (args, pos) ← parseArgsLoop tokens fuel pos
        let (_, pos) ← eat tokens pos (some "SEP") (some ")")
        .ok (arg :: args, pos)
      else do
        let (_, pos) ← eat tokens pos (some "SEP") (some ")")
        .ok ([], pos)
termination_by structural fuel pos => fuel

/-- The `while self.current()[1] == ','` loop inside `arguments`. -/
def parseArgsLoop (tokens : List Token) : Nat → Nat →
    Except PyErr (List ASTNode × Nat)
  | 0, _ => .error .recursionError
  | fuel + 1, pos =>
      if (currentTok tokens pos).text = "," then do
        let (_, pos) ← eat tokens pos (some "SEP") (some ",")
        let (arg, pos) ← parse_binary_expr tokens fuel 0 pos
        let (args, pos) ← parseArgsLoop tokens fuel pos
        .ok (arg :: args, pos)
      else .ok ([], pos)
termination_by structural fuel pos => fuel

end

/-- `Parser.expression`. -/
def expression (tokens : List Token) (fuel pos : Nat) :
    Except PyErr (ASTNode × Nat) :=
  parse_binary_expr tokens fuel 0 pos

/-! ## Interpreter (src/interpreter.py)

    Runtime values are the Python primitives the interpreter stores in its
    heap.  Python floats are modelled as rationals; the hostless float
    operations (`math.sqrt`, fractional powers, float formatting, `%` string
    formatting) are abstracted into a `HostFns` record, since no claim
    depends on their numeric results. -/

inductive Value where
  | vint (n : Int)
  | vfloat (q : ℚ)
  | vstr (s : String)
  | vbool (b : Bool)
  | vnone
deriving DecidableEq, Repr

/-- Abstracted host (CPython) numeric primitives. -/
structure HostFns where
  sqrtQ : ℚ → ℚ
  powQ : ℚ → ℚ → Value
  floatStr : ℚ → String
  strFormat : String → Value → Except PyErr Value

def defaultHost : HostFns where
  sqrtQ := fun _ => 0
  powQ := fun _ _ => .vfloat 0
  floatStr := fun q => toString q.num
  strFormat := fun _ _ =>
    .error (.typeError "not all arguments converted during string formatting")

/-- What a Python environment dict can hold as a value: a heap id, `None`,
    or (for `fn` definitions) the function's own AST node. -/
inductive EnvVal where
  | objId (n : Nat)
  | pynone
  | fnNode (f : ASTNode)

/-- Space/comma joining (as `" ".join(...)`); a structurally recursive
    stand-in for string-library joins. -/
def joinSep (sep : String) : List String → String
  | [] => ""
  | [s] => s
  | s :: rest => s ++ sep ++ joinSep sep rest

/-- Does the string start with the given prefix text? -/
def textLeads (pat s : String) : Bool := leadsWith pat.data s.data

/-- Does `pat` occur as a contiguous substring? -/
def hasSub : List Char → List Char → Bool
  | cs, pat =>
      if leadsWith pat cs then true
      else match cs with
        | [] => false
        | _ :: rest => hasSub rest pat

/-- The `is None` identity test on an environment value. -/
def EnvVal.isPyNone : EnvVal → Bool
  | .pynone => true
  | _ => false

/-- `str(...)` of an AST payload, used where the source interpolates
    `node.value` into messages or converts it (tuple shapes are rendered
    approximately; they never arise from the parser). -/
def nodeValStr : NodeValue → String
  | .vstr s => s
  | .vnone => "None"
  | .vbool b => if b then "True" else "False"
  | .vpair a b => "('" ++ a ++ "', '" ++ b ++ "')"
  | .vsig n ps => "('" ++ n ++ "', [" ++
      joinSep ", " (ps.map (fun p => "'" ++ p ++ "'")) ++ "])"

/-! Association-list operations standing in for Python dict get/set/del
    (keys are unique in every dict the source builds). -/

def getA {K α : Type} [DecidableEq K] : List (K × α) → K → Option α
  | [], _ => none
  | p :: ps, k => if p.1 = k then some p.2 else getA ps k

/-- Replace the value under an existing key (first occurrence). -/
def setA {K α : Type} [DecidableEq K] : List (K × α) → K → α → List (K × α)
  | [], _, _ => []
  | p :: ps, k, v => if p.1 = k then (k, v) :: ps else p :: setA ps k v

/-- `del d[k]`. -/
def eraseA {K α : Type} [DecidableEq K] (l : List (K × α)) (k : K) :
    List (K × α) :=
  l.filter (fun p => p.1 ≠ k)

/-- `d[k] = v`: in-place update when the key exists, append otherwise
    (Python dicts keep insertion order). -/
def dictSet {K α : Type} [DecidableEq K] (l : List (K × α)) (k : K) (v : α) :
    List (K × α) :=
  if (getA l k).isSome then setA l k v else l ++ [(k, v)]

/-- The `Heap` class: `memory`, `ref_count`, `next_id`. -/
structure HeapSt where
  memory : List (Nat × Value)
  ref_count : List (Nat × Nat)
  next_id : Nat
deriving Repr

/-- `Heap.allocate`. -/
def allocate (h : HeapSt) (v : Value) : Nat × HeapSt :=
  (h.next_id,
    { memory := (h.next_id, v) :: h.memory,
      ref_count := (h.next_id, 1) :: h.ref_count,
      next_id := h.next_id + 1 })

/-- `Heap.retain`: a no-op unless the argument is an id present in
    `ref_count` (in particular a no-op on `None` and on AST nodes). -/
def retain (h : HeapSt) (v : EnvVal) : HeapSt :=
  match v with
  | .objId n =>
      match getA h.ref_count n with
      | some c => { h with ref_count := setA h.ref_count n (c + 1) }
      | none => h
  | _ => h

/-- `Heap.release`: decrement and delete the entry once the count reaches
    zero; same no-op guard as `retain`. -/
def release (h : HeapSt) (v : EnvVal) : HeapSt :=
  match v with
  | .objId n =>
      match getA h.ref_count n with
      | some c =>
          if c ≤ 1 then
            { h with memory := eraseA h.memory n,
                     ref_count := eraseA h.ref_count n }
          else { h with ref_count := setA h.ref_count n (c - 1) }
      | none => h
  | _ => h

/-- `Heap.get` (`self.memory[obj_id]`): raises `KeyError` when the id is
    absent, or when the index is `None` or an AST node. -/
def heapGet (h : HeapSt) (v : EnvVal) : Except PyErr Value :=
  match v with
  | .objId n =>
      match getA h.memory n with
      | some w => .ok w
      | none => .error (.keyError (toString n))
  | .pynone => .error (.keyError "None")
  | .fnNode _ => .error (.keyError "ASTNode")

/-- One environment frame: a name-to-value dict.  Keys are the raw AST
    payloads the source uses as dict keys (strings in every reachable
    case). -/
abbrev Frame := List (NodeValue × EnvVal)

/-- Interpreter state: heap, environment stack, and the std streams.
    The stack is kept innermost-frame-first (the source appends at the end
    and always reads/pops `[-1]`); `stdin` is the lines `input` will read,
    `stdout` collects one entry per `print`/prompt write. -/
structure Interp where
  heap : HeapSt
  env_stack : List Frame
  stdin : List String
  stdout : List String

/-- `Interpreter.__init__` (fresh heap, a single global frame). -/
def initInterp (stdin : List String) : Interp :=
  { heap := { memory := [], ref_count := [], next_id := 0 },
    env_stack := [[]], stdin := stdin, stdout := [] }

/-- `Interpreter.push_env`. -/
def push_env (σ : Interp) : Interp :=
  { σ with env_stack := [] :: σ.env_stack }

/-- `Interpreter.pop_env`: pop the innermost frame and release every heap
    id it holds (popping an empty stack would be a host `IndexError`). -/
def pop_env (σ : Interp) : Except PyErr Interp :=
  match σ.env_stack with
  | fr :: rest =>
      .ok { σ with heap := fr.foldl (fun h p => release h p.2) σ.heap,
                   env_stack := rest }
  | [] => .error (.indexError "pop from empty list")

/-- `self.current_env()[name] = v`. -/
def current_env_set (σ : Interp) (k : NodeValue) (v : EnvVal) :
    Except PyErr Interp :=
  match σ.env_stack with
  | fr :: rest => .ok { σ with env_stack := dictSet fr k v :: rest }
  | [] => .error (.indexError "list index out of range")

/-- `Interpreter.lookup`: innermost-to-outermost search. -/
def lookupVar (σ : Interp) (k : NodeValue) : Except PyErr EnvVal :=
  go σ.env_stack
where
  go : List Frame → Except PyErr EnvVal
    | [] => .error (.runtimeError ("Variable '" ++ nodeValStr k ++ "' not defined"))
    | fr :: rest =>
        match getA fr k with
        | some v => .ok v
        | none => go rest

/-- The frame walk of `Interpreter.assign`: release the old binding, rebind,
    retain the new id — in the frame where the name was found. -/
def assignLoop (h : HeapSt) (k : NodeValue) (v : EnvVal) :
    List Frame → Option (HeapSt × List Frame)
  | [] => none
  | fr :: rest =>
      match getA fr k with
      | some old =>
          let h1 := release h old
          let fr' := dictSet fr k v
          some (retain h1 v, fr' :: rest)
      | none => (assignLoop h k v rest).map (fun p => (p.1, fr :: p.2))

/-- `Interpreter.assign`: rebind where found, else bind in the current
    (innermost) frame, retaining the new id either way. -/
def assignVar (σ : Interp) (k : NodeValue) (v : EnvVal) :
    Except PyErr Interp :=
  match assignLoop σ.heap k v σ.env_stack with
  | some (h', stack') => .ok { σ with heap := h', env_stack := stack' }
  | none =>
      (current_env_set σ k v).map
        (fun σ' => { σ' with heap := retain σ'.heap v })

/-! Python operator semantics on the five primitive kinds (`bool` is a
    numeric subtype: `True + 1 == 2`). -/

def pyTypeName : Value → String
  | .vint _ => "int"
  | .vfloat _ => "float"
  | .vstr _ => "str"
  | .vbool _ => "bool"
  | .vnone => "NoneType"

/-- Integer view (`int` and `bool`). -/
def asInt : Value → Option Int
  | .vint n => some n
  | .vbool b => some (if b then 1 else 0)
  | _ => none

/-- Numeric view: the rational value plus whether it is a float. -/
def asNum : Value → Option (ℚ × Bool)
  | .vint n => some ((n : ℚ), false)
  | .vbool b => some ((if b then 1 else 0 : ℚ), false)
  | .vfloat q => some (q, true)
  | _ => none

def truthy : Value → Bool
  | .vint n => n ≠ 0
  | .vfloat q => q ≠ 0
  | .vstr s => s ≠ ""
  | .vbool b => b
  | .vnone => false

def binTypeErr (op : String) (a b : Value) : PyErr :=
  .typeError ("unsupported operand type(s) for " ++ op ++ ": '" ++
    pyTypeName a ++ "' and '" ++ pyTypeName b ++ "'")

def pyAdd (a b : Value) : Except PyErr Value :=
  match a, b with
  | .vstr s1, .vstr s2 => .ok (.vstr (s1 ++ s2))
  | _, _ =>
      match asInt a, asInt b with
      | some x, some y => .ok (.vint (x + y))
      | _, _ =>
          match asNum a, asNum b with
          | some (qa, _), some (qb, _) => .ok (.vfloat (qa + qb))
          | _, _ => .error (binTypeErr "+" a b)

def pySub (a b : Value) : Except PyErr Value :=
  match asInt a, asInt b with
  | some x, some y => .ok (.vint (x - y))
  | _, _ =>
      match asNum a, asNum b with
      | some (qa, _), some (qb, _) => .ok (.vfloat (qa - qb))
      | _, _ => .error (binTypeErr "-" a b)

def strRepeat (s : String) (n : Int) : String :=
  (List.replicate n.toNat s).foldl (· ++ ·) ""

def pyMul (a b : Value) : Except PyErr Value :=
  match a, b with
  | .vstr s, _ =>
      match asInt b with
      | some y => .ok (.vstr (strRepeat s y))
      | none => .error (.typeError ("can't multiply sequence by non-int of type '"
          ++ pyTypeName b ++ "'"))
  | _, .vstr s =>
      match asInt a with
      | some x => .ok (.vstr (strRepeat s x))
      | none => .error (.typeError ("can't multiply sequence by non-int of type '"
          ++ pyTypeName a ++ "'"))
  | _, _ =>
      match asInt a, asInt b with
      | some x, some y => .ok (.vint (x * y))
      | _, _ =>
          match asNum a, asNum b with
          | some (qa, _), some (qb, _) => .ok (.vfloat (qa * qb))
          | _, _ => .error (binTypeErr "*" a b)

/-- `/` is true division: the result is always a float. -/
def pyDiv (a b : Value) : Except PyErr Value :=
  match asNum a, asNum b with
  | some (qa, fa), some (qb, fb) =>
      if qb = 0 then
        .error (.zeroDivisionError
          (if fa || fb then "float division by zero" else "division by zero"))
      else .ok (.vfloat (qa / qb))
  | _, _ => .error (binTypeErr "/" a b)

/-- `%`: Python remainder takes the divisor's sign (`Int.fmod`); on floats
    it is `a - b * floor(a / b)`; on a string left operand it is printf-style
    formatting (abstracted into the host record by the caller). -/
def pyMod (H : HostFns) (a b : Value) : Except PyErr Value :=
  match a with
  | .vstr s => H.strFormat s b
  | _ =>
      match asInt a, asInt b with
      | some x, some y =>
          if y = 0 then
            .error (.zeroDivisionError "integer division or modulo by zero")
          else .ok (.vint (Int.fmod x y))
      | _, _ =>
          match asNum a, asNum b with
          | some (qa, _), some (qb, _) =>
              if qb = 0 then .error (.zeroDivisionError "float modulo")
              else .ok (.vfloat (qa - qb * (⌊qa / qb⌋ : Int)))
          | _, _ => .error (binTypeErr "%" a b)

/-- `==` never fails: mismatched kinds simply compare unequal (numerics
    compare by value across int/float/bool). -/
def pyEqBool (a b : Value) : Bool :=
  match a, b with
  | .vstr s1, .vstr s2 => s1 = s2
  | .vnone, .vnone => true
  | _, _ =>
      match asNum a, asNum b with
      | some (qa, _), some (qb, _) => qa = qb
      | _, _ => false

/-- Shared shape of `< > <= >=`: numeric-numeric and str-str compare,
    anything else is a `TypeError`. -/
def pyCmp (op : String) (qcmp : ℚ → ℚ → Bool) (scmp : String → String → Bool)
    (a b : Value) : Except PyErr Value :=
  match a, b with
  | .vstr s1, .vstr s2 => .ok (.vbool (scmp s1 s2))
  | _, _ =>
      match asNum a, asNum b with
      | some (qa, _), some (qb, _) => .ok (.vbool (qcmp qa qb))
      | _, _ => .error (.typeError ("'" ++ op ++ "' not supported between instances of '"
          ++ pyTypeName a ++ "' and '" ++ pyTypeName b ++ "'"))

/-- The operator dispatch chain in the `BinOp` case of `Interpreter.eval`
    (`&&`/`||` coerce both operands to truthiness; no short-circuit — the
    caller has already evaluated both). -/
def pyBinOp (H : HostFns) (op : String) (a b : Value) : Except PyErr Value :=
  if op = "+" then pyAdd a b
  else if op = "-" then pySub a b
  else if op = "*" then pyMul a b
  else if op = "/" then pyDiv a b
  else if op = "%" then pyMod H a b
  else if op = "==" then .ok (.vbool (pyEqBool a b))
  else if op = "!=" then .ok (.vbool (!pyEqBool a b))
  else if op = "<" then pyCmp "<" (fun x y => x < y) (fun s t => s < t) a b
  else if op = ">" then pyCmp ">" (fun x y => y < x) (fun s t => t < s) a b
  else if op = "<=" then pyCmp "<=" (fun x y => x ≤ y) (fun s t => s < t ∨ s = t) a b
  else if op = ">=" then pyCmp ">=" (fun x y => y ≤ x) (fun s t => t < s ∨ s = t) a b
  else if op = "&&" then .ok (.vbool (truthy a && truthy b))
  else if op = "||" then .ok (.vbool (truthy a || truthy b))
  else .error (.runtimeError ("Unknown operator " ++ op))

/-- The `UnaryOp` dispatch (`++`/`--` compute `operand ± 1` without
    mutating any binding). -/
def pyUnaryOp (a : Value) (op : String) : Except PyErr Value :=
  if op = "+" then
    match asInt a with
    | some x => .ok (.vint x)
    | none =>
        match a with
        | .vfloat q => .ok (.vfloat q)
        | _ => .error (.typeError ("bad operand type for unary +: '" ++ pyTypeName a ++ "'"))
  else if op = "-" then
    match asInt a with
    | some x => .ok (.vint (-x))
    | none =>
        match a with
        | .vfloat q => .ok (.vfloat (-q))
        | _ => .error (.typeError ("bad operand type for unary -: '" ++ pyTypeName a ++ "'"))
  else if op = "!" then .ok (.vbool (!truthy a))
  else if op = "++" then pyAdd a (.vint 1)
  else if op = "--" then pySub a (.vint 1)
  else .error (.runtimeError ("Unknown unary operator " ++ op))

/-- `str(value)` for printing and `to_string`. -/
def pyStr (H : HostFns) : Value → String
  | .vint n => toString n
  | .vfloat q => H.floatStr q
  | .vstr s => s
  | .vbool b => if b then "True" else "False"
  | .vnone => "None"

def trimWs (s : String) : List Char :=
  ((s.data.dropWhile (fun c => c = ' ' ∨ c = '\t' ∨ c = '\n')).reverse.dropWhile
    (fun c => c = ' ' ∨ c = '\t' ∨ c = '\n')).reverse

def digitsToNat (ds : List Char) : Nat :=
  ds.foldl (fun acc c => acc * 10 + (c.toNat - '0'.toNat)) 0

/-- `int(s)` on a decimal literal (underscores/unicode digits are not
    modelled; the lexer only produces `[-+]?digits` texts). -/
def pyParseInt (s : String) : Except PyErr Int :=
  let err : PyErr := .valueError ("invalid literal for int() with base 10: '" ++ s ++ "'")
  match trimWs s with
  | [] => .error err
  | c :: cs =>
      let (neg, ds) : Bool × List Char :=
        if c = '-' then (true, cs) else if c = '+' then (false, cs) else (false, c :: cs)
      if ds.isEmpty ∨ ¬ ds.all Char.isDigit then .error err
      else .ok (if neg then -(digitsToNat ds : Int) else (digitsToNat ds : Int))

/-- `float(s)` on `[-+]?digits[.digits]` texts (exponents etc. not
    modelled; the lexer cannot produce them). -/
def pyParseFloat (s : String) : Except PyErr ℚ :=
  let err : PyErr := .valueError ("could not convert string to float: '" ++ s ++ "'")
  match trimWs s with
  | [] => .error err
  | c :: cs =>
      let (neg, ds) : Bool × List Char :=
        if c = '-' then (true, cs) else if c = '+' then (false, cs) else (false, c :: cs)
      let ip := ds.takeWhile Char.isDigit
      let rest := ds.dropWhile Char.isDigit
      let ok (q : ℚ) : Except PyErr ℚ := .ok (if neg then -q else q)
      match rest with
      | [] => if ip.isEmpty then .error err else ok (digitsToNat ip)
      | '.' :: fs =>
          if ¬ fs.all Char.isDigit ∨ (ip.isEmpty ∧ fs.isEmpty) then .error err
          else ok ((digitsToNat ip : ℚ) +
            (digitsToNat fs : ℚ) / ((10 : ℚ) ^ fs.length))
      | _ => .error err

/-- Truncation toward zero, as `int(float)` does. -/
def qTrunc (q : ℚ) : Int := if 0 ≤ q then ⌊q⌋ else -⌊-q⌋

/-- Truthiness of an AST payload (`bool(node.value)` in the `Bool` case). -/
def nodeValTruthy : NodeValue → Bool
  | .vbool b => b
  | .vstr s => s ≠ ""
  | .vnone => false
  | .vpair _ _ => true
  | .vsig _ _ => true

/-- The quote-stripping in the `String` case of `eval`. -/
def stripQuotes (s : String) : String :=
  let cs := s.data
  if (cs.head? = some '"' ∧ cs.getLast? = some '"') ∨
     (cs.head? = some '\'' ∧ cs.getLast? = some '\'') then
    String.mk (cs.drop 1).dropLast
  else s

/-- The outcome of evaluating one node: a normal Python return value of
    `eval` (a heap id, `None`, or an AST node), or an in-flight
    `ReturnValue` exception carrying the dereferenced value. -/
inductive Res where
  | val (v : EnvVal)
  | ret (w : Value)

/-- Success-and-no-exception continuation: a `ReturnValue` in flight (or a
    real error) propagates past every expression context, carrying the
    state mutated so far. -/
def bindVal (x : Except PyErr (Interp × Res))
    (k : Interp → EnvVal → Except PyErr (Interp × Res)) :
    Except PyErr (Interp × Res) :=
  match x with
  | .error e => .error e
  | .ok (σ, .ret w) => .ok (σ, .ret w)
  | .ok (σ, .val v) => k σ v

/-- Allocate and hand back the fresh id. -/
def allocEnv (σ : Interp) (w : Value) : Interp × EnvVal :=
  let p := allocate σ.heap w
  ({ σ with heap := p.2 }, .objId p.1)

def argN (args : List Value) (i : Nat) : Except PyErr Value :=
  match args.drop i with
  | v :: _ => .ok v
  | [] => .error (.indexError "list index out of range")

/-- `min(args)` / `max(args)` keeping the earliest extremum, comparing with
    `<` (resp. `>`), so mixed kinds raise `TypeError` mid-fold. -/
def minMaxFold (op : String) (qcmp : ℚ → ℚ → Bool)
    (scmp : String → String → Bool) : Value → List Value → Except PyErr Value
  | best, [] => .ok best
  | best, x :: xs => do
      let c ← pyCmp op qcmp scmp x best
      minMaxFold op qcmp scmp (if truthy c then x else best) xs

/-- Keys of the `Interpreter.__init__` builtin dispatch table (note:
    `push`/`pop` are lexer FUNCTION names but have no interpreter entry). -/
def interpBuiltins : List String :=
  ["print", "input", "to_int", "to_float", "to_string", "abs", "min", "max",
   "sqrt", "pow", "len", "assert", "panic"]

/-- `_builtin_print`. -/
def builtinPrint (H : HostFns) (args : List Value) (σ : Interp) :
    Except PyErr (Interp × EnvVal) :=
  .ok ({ σ with stdout := σ.stdout ++ [joinSep " " (args.map (pyStr H))] },
       .pynone)

/-- `_builtin_input`. -/
def builtinInput (H : HostFns) (args : List Value) (σ : Interp) :
    Except PyErr (Interp × EnvVal) :=
  let prompt := match args with | a :: _ => a | [] => .vstr ""
  match σ.stdin with
  | [] => .error (.eofError "EOF when reading a line")
  | l :: rest =>
      .ok (allocEnv
        { σ with stdout := σ.stdout ++ [pyStr H prompt], stdin := rest }
        (.vstr l))

/-- `to_int`. -/
def builtinToInt (args : List Value) (σ : Interp) :
    Except PyErr (Interp × EnvVal) := do
  let a ← argN args 0
  let n ← match a with
    | .vint n => Except.ok n
    | .vbool b => Except.ok (if b then (1 : Int) else 0)
    | .vfloat q => Except.ok (qTrunc q)
    | .vstr s => pyParseInt s
    | .vnone => Except.error (.typeError
        "int() argument must be a string, a bytes-like object or a real number, not 'NoneType'")
  .ok (allocEnv σ (.vint n))

/-- `to_float`. -/
def builtinToFloat (args : List Value) (σ : Interp) :
    Except PyErr (Interp × EnvVal) := do
  let a ← argN args 0
  let q ← match a with
    | .vint n => Except.ok (n : ℚ)
    | .vbool b => Except.ok (if b then (1 : ℚ) else 0)
    | .vfloat q => Except.ok q
    | .vstr s => pyParseFloat s
    | .vnone => Except.error (.typeError
        "float() argument must be a string or a real number, not 'NoneType'")
  .ok (allocEnv σ (.vfloat q))

/-- `to_string`. -/
def builtinToString (H : HostFns) (args : List Value) (σ : Interp) :
    Except PyErr (Interp × EnvVal) := do
  let a ← argN args 0
  .ok (allocEnv σ (.vstr (pyStr H a)))

/-- `abs`. -/
def builtinAbs (args : List Value) (σ : Interp) :
    Except PyErr (Interp × EnvVal) := do
  let a ← argN args 0
  match asInt a with
  | some x => .ok (allocEnv σ (.vint |x|))
  | none =>
      match a with
      | .vfloat q => .ok (allocEnv σ (.vfloat |q|))
      | _ => .error (.typeError ("bad operand type for abs(): '" ++ pyTypeName a ++ "'"))

/-- `min`. -/
def builtinMin (args : List Value) (σ : Interp) :
    Except PyErr (Interp × EnvVal) :=
  match args with
  | [] => .error (.valueError "min() arg is an empty sequence")
  | a :: rest => do
      let m ← minMaxFold "<" (fun x y => x < y) (fun s t => s < t) a rest
      .ok (allocEnv σ m)

/-- `max`. -/
def builtinMax (args : List Value) (σ : Interp) :
    Except PyErr (Interp × EnvVal) :=
  match args with
  | [] => .error (.valueError "max() arg is an empty sequence")
  | a :: rest => do
      let m ← minMaxFold ">" (fun x y => y < x) (fun s t => t < s) a rest
      .ok (allocEnv σ m)

/-- `sqrt` (`math.sqrt`, numeric result abstracted into `HostFns`). -/
def builtinSqrt (H : HostFns) (args : List Value) (σ : Interp) :
    Except PyErr (Interp × EnvVal) := do
  let a ← argN args 0
  match asNum a with
  | some (q, _) =>
      if q < 0 then .error (.valueError "math domain error")
      else .ok (allocEnv σ (.vfloat (H.sqrtQ q)))
  | none => .error (.typeError ("must be real number, not " ++ pyTypeName a))

/-- `pow` (`a ** b`; non-integer exponents abstracted into `HostFns`). -/
def builtinPow (H : HostFns) (args : List Value) (σ : Interp) :
    Except PyErr (Interp × EnvVal) := do
  let a ← argN args 0
  let b ← argN args 1
  match asInt a, asInt b with
  | some x, some y =>
      if 0 ≤ y then .ok (allocEnv σ (.vint (x ^ y.toNat)))
      else if x = 0 then
        .error (.zeroDivisionError "0.0 cannot be raised to a negative power")
      else .ok (allocEnv σ (.vfloat ((x : ℚ) ^ y)))
  | _, _ =>
      match asNum a, asNum b with
      | some (qa, _), some (qb, _) =>
          if qb.den = 1 then
            if qa = 0 ∧ qb.num < 0 then
              .error (.zeroDivisionError "0.0 cannot be raised to a negative power")
            else .ok (allocEnv σ (.vfloat (qa ^ qb.num)))
          else .ok (allocEnv σ (H.powQ qa qb))
      | _, _ => .error (binTypeErr "** or pow()" a b)

/-- `len`. -/
def builtinLen (args : List Value) (σ : Interp) :
    Except PyErr (Interp × EnvVal) := do
  let a ← argN args 0
  match a with
  | .vstr s => .ok (allocEnv σ (.vint (s.length : Int)))
  | _ => .error (.typeError ("object of type '" ++ pyTypeName a ++ "' has no len()"))

/-- `_builtin_assert`. -/
def builtinAssert (args : List Value) (σ : Interp) :
    Except PyErr (Interp × EnvVal) := do
  let a ← argN args 0
  if truthy a then .ok (σ, .pynone)
  else .error (.runtimeError "Assertion failed")

/-- `_builtin_panic`. -/
def builtinPanic (H : HostFns) (args : List Value) (σ : Interp) :
    Except PyErr (Interp × EnvVal) := do
  let a ← argN args 0
  .error (.runtimeError (pyStr H a))

/-- The builtin dispatch of `self.builtins[func_name](args)`. -/
def callBuiltin (H : HostFns) (name : String) (args : List Value)
    (σ : Interp) : Except PyErr (Interp × EnvVal) :=
  if name = "print" then builtinPrint H args σ
  else if name = "input" then builtinInput H args σ
  else if name = "to_int" then builtinToInt args σ
  else if name = "to_float" then builtinToFloat args σ
  else if name = "to_string" then builtinToString H args σ
  else if name = "abs" then builtinAbs args σ
  else if name = "min" then builtinMin args σ
  else if name = "max" then builtinMax args σ
  else if name = "sqrt" then builtinSqrt H args σ
  else if name = "pow" then builtinPow H args σ
  else if name = "len" then builtinLen args σ
  else if name = "assert" then builtinAssert args σ
  else if name = "panic" then builtinPanic H args σ
  else .error (.keyError name)

/-- `local_env[pname] = self.heap.allocate(val)` over `zip(params, args)`. -/
def bindParams : Interp → List String → List Value → Except PyErr Interp
  | σ, [], _ => .ok σ
  | σ, _, [] => .ok σ
  | σ, p :: ps, w :: ws =>
      let x := allocEnv σ w
      match current_env_set x.1 (.vstr p) x.2 with
      | .ok σ2 => bindParams σ2 ps ws
      | .error e => .error e

/-- Early-exit result of the argument list comprehension. -/
inductive ArgsRes where
  | vals (ws : List Value)
  | ret (w : Value)

mutual

/-- `Interpreter.eval`, keyed on `node.type` exactly as the source's
    if/elif chain.  Fuel stands in for Python's recursion limit. -/
def evalNode (H : HostFns) : Nat → Interp → ASTNode → Except PyErr (Interp × Res)
  | 0, _, _ => .error .recursionError
  | fuel + 1, σ, node =>
    let t := node.type
    if t = "Program" then
      evalStmts H fuel σ node.children .pynone
    else if t = "VarDecl" then
      match node.value with
      | .vpair _kind name =>
          match node.children with
          | [] =>
              (current_env_set σ (.vstr name) .pynone).map
                (fun σ2 => (σ2, .val .pynone))
          | c :: _ =>
              bindVal (evalNode H fuel σ c) (fun σ1 v =>
                let σ2 := if !v.isPyNone
                  then { σ1 with heap := retain σ1.heap v } else σ1
                (current_env_set σ2 (.vstr name) v).map
                  (fun σ3 => (σ3, .val v)))
      | _ => .error (.typeError "cannot unpack non-sequence VarDecl value")
    else if t = "Assign" then
      match node.children with
      | [] => .error (.indexError "list index out of range")
      | c :: _ =>
          bindVal (evalNode H fuel σ c) (fun σ1 v =>
            (assignVar σ1 node.value v).map (fun σ2 => (σ2, .val v)))
    else if t = "Var" then
      (lookupVar σ node.value).map (fun v => (σ, .val v))
    else if t = "Number" then
      let s := nodeValStr node.value
      if s.data.contains '.' then
        (pyParseFloat s).map (fun q =>
          let p := allocEnv σ (.vfloat q)
          (p.1, .val p.2))
      else
        (pyParseInt s).map (fun n =>
          let p := allocEnv σ (.vint n)
          (p.1, .val p.2))
    else if t = "String" then
      let p := allocEnv σ (.vstr (stripQuotes (nodeValStr node.value)))
      .ok (p.1, .val p.2)
    else if t = "Bool" then
      let p := allocEnv σ (.vbool (nodeValTruthy node.value))
      .ok (p.1, .val p.2)
    else if t = "Null" then
      let p := allocEnv σ .vnone
      .ok (p.1, .val p.2)
    else if t = "BinOp" then
      match node.children with
      | c0 :: c1 :: _ =>
          bindVal (evalNode H fuel σ c0) (fun σ1 i0 =>
            match heapGet σ1.heap i0 with
            | .error e => .error e
            | .ok lv =>
                bindVal (evalNode H fuel σ1 c1) (fun σ2 i1 =>
                  match heapGet σ2.heap i1 with
                  | .error e => .error e
                  | .ok rv =>
                      match node.value with
                      | .vstr op =>
                          (pyBinOp H op lv rv).map (fun w =>
                            let p := allocEnv σ2 w
                            (p.1, .val p.2))
                      | other => .error (.runtimeError
                          ("Unknown operator " ++ nodeValStr other))))
      | _ => .error (.indexError "list index out of range")
    else if t = "UnaryOp" then
      match node.children with
      | c0 :: _ =>
          bindVal (evalNode H fuel σ c0) (fun σ1 i0 =>
            match heapGet σ1.heap i0 with
            | .error e => .error e
            | .ok v =>
                match node.value with
                | .vstr op =>
                    (pyUnaryOp v op).map (fun w =>
                      let p := allocEnv σ1 w
                      (p.1, .val p.2))
                | other => .error (.runtimeError
                    ("Unknown unary operator " ++ nodeValStr other)))
      | [] => .error (.indexError "list index out of range")
    else if t = "Function" then
      match node.value with
      | .vsig name _params =>
          (current_env_set σ (.vstr name) (.fnNode node)).map
            (fun σ2 => (σ2, .val .pynone))
      | _ => .error (.typeError "cannot unpack non-sequence Function value")
    else if t = "Return" then
      match node.children with
      | [] => .error (.indexError "list index out of range")
      | c :: _ =>
          bindVal (evalNode H fuel σ c) (fun σ1 v =>
            (heapGet σ1.heap v).map (fun w => (σ1, .ret w)))
    else if t = "Call" then
      match evalArgs H fuel σ node.children with
      | .error e => .error e
      | .ok (σ1, .ret w) => .ok (σ1, .ret w)
      | .ok (σ1, .vals args) =>
          let isBuiltin := match node.value with
            | .vstr s => interpBuiltins.contains s
            | _ => false
          if isBuiltin then
            match node.value with
            | .vstr s =>
                (callBuiltin H s args σ1).map (fun p => (p.1, .val p.2))
            | _ => .error (.keyError "unreachable")
          else
            match lookupVar σ1 node.value with
            | .error e => .error e
            | .ok fv =>
                match fv with
                | .fnNode f =>
                    if f.type = "Function" then
                      match f.value with
                      | .vsig _ params =>
                          if params.length ≠ args.length then
                            .error (.runtimeError (nodeValStr node.value ++
                              " expects " ++ toString params.length ++
                              " args, got " ++ toString args.length))
                          else
                            match bindParams (push_env σ1) params args with
                            | .error e => .error e
                            | .ok σ2 =>
                                match evalStmts H fuel σ2 f.children .pynone with
                                | .error e => .error e
                                | .ok (σ3, .val r) =>
                                    (pop_env σ3).map (fun σ4 => (σ4, .val r))
                                | .ok (σ3, .ret w) =>
                                    (pop_env σ3).map (fun σ4 =>
                                      let p := allocEnv σ4 w
                                      (p.1, .val p.2))
                      | _ => .error (.typeError
                          "cannot unpack non-sequence Function value")
                    else .error (.runtimeError ("'" ++ nodeValStr node.value ++
                      "' is not a function"))
                | _ => .error (.runtimeError ("'" ++ nodeValStr node.value ++
                    "' is not a function"))
    else .error (.runtimeError ("Unknown node type: " ++ t))
termination_by structural fuel s n => fuel

/-- The statement loops (`Program` body and user-call body):
    `result = None; for stmt in ...: result = self.eval(stmt)`, with a
    `ReturnValue` exception abandoning the loop. -/
def evalStmts (H : HostFns) : Nat → Interp → List ASTNode → EnvVal →
    Except PyErr (Interp × Res)
  | 0, _, _, _ => .error .recursionError
  | _ + 1, σ, [], last => .ok (σ, .val last)
  | fuel + 1, σ, stmt :: rest, _ =>
      match evalNode H fuel σ stmt with
      | .ok (σ1, .val v) => evalStmts H fuel σ1 rest v
      | .ok (σ1, .ret w) => .ok (σ1, .ret w)
      | .error e => .error e
termination_by structural fuel s l r => fuel

/-- `[self.heap.get(self.eval(arg)) for arg in node.children]`. -/
def evalArgs (H : HostFns) : Nat → Interp → List ASTNode →
    Except PyErr (Interp × ArgsRes)
  | 0, _, _ => .error .recursionError
  | _ + 1, σ, [] => .ok (σ, .vals [])
  | fuel + 1, σ, a :: rest =>
      match evalNode H fuel σ a with
      | .ok (σ1, .val v) =>
          match heapGet σ1.heap v with
          | .error e => .error e
          | .ok w =>
              match evalArgs H fuel σ1 rest with
              | .ok (σ2, .vals ws) => .ok (σ2, .vals (w :: ws))
              | .ok (σ2, .ret r) => .ok (σ2, .ret r)
              | .error e => .error e
      | .ok (σ1, .ret w) => .ok (σ1, .ret w)
      | .error e => .error e
termination_by structural fuel s l => fuel

end

/-- Pipeline glue for expression-level claims: lex the text, parse it as a
    single expression, evaluate it in a fresh interpreter, and dereference
    the resulting heap id. -/
def evalSourceExpr (H : HostFns) (fuel : Nat) (code : String) :
    Except PyErr Value := do
  let toks ← lexer code
  let (ast, _) ← expression toks fuel 0
  let (σ, r) ← evalNode H fuel (initInterp []) ast
  match r with
  | .val v => heapGet σ.heap v
  | .ret _ => .error (.runtimeError "return outside call")

/-! ## Semantic analyzer (src/semantic.py) -/

/-- `VariableInfo` (the `is_mutable`/`is_const` fields are derived from
    `kind` at construction). -/
structure VariableInfo where
  name : String
  var_type : String
  kind : String
  line : Option Nat
  is_initialized : Bool
  is_mutable : Bool
  is_const : Bool
  is_used : Bool
deriving DecidableEq, Repr

def mkVariableInfo (name var_type kind : String) (line : Option Nat)
    (is_initialized : Bool) : VariableInfo :=
  { name := name, var_type := var_type, kind := kind, line := line,
    is_initialized := is_initialized, is_mutable := kind = "mut",
    is_const := kind = "const", is_used := false }

structure SemanticError where
  message : String
  line : Option Nat
deriving DecidableEq, Repr

/-- Analyzer failures: a `SemanticError` exception escaping the traversal,
    or a host-level exception (bad indexing/unpacking on malformed nodes). -/
inductive SemExc where
  | sem (e : SemanticError)
  | host (e : PyErr)
deriving DecidableEq, Repr

/-- One scope's `symbols` dict. -/
abbrev Scope := List (String × VariableInfo)

/-- Analyzer state: the scope chain (innermost first; the global scope is
    last and never popped), plus the accumulated errors and warnings. -/
structure SemSt where
  scopes : List Scope
  errors : List SemanticError
  warnings : List String
deriving DecidableEq, Repr

def initSemSt : SemSt := { scopes := [[]], errors := [], warnings := [] }

/-- `SymbolTable.declare` raises on a duplicate name in the same scope. -/
def declare (st : SemSt) (name var_type kind : String) (line : Option Nat)
    (is_initialized : Bool) : Except SemExc SemSt :=
  match st.scopes with
  | fr :: rest =>
      if (getA fr name).isSome then
        .error (.sem ⟨"Variable '" ++ name ++ "' already declared in this scope", line⟩)
      else
        let fr2 := dictSet fr name (mkVariableInfo name var_type kind line is_initialized)
        .ok { st with scopes := fr2 :: rest }
  | [] => .error (.host (.indexError "no current scope"))

/-- ASCII `str.lower()` (node type tags are ASCII). -/
def lowerChar (c : Char) : Char :=
  if 'A' ≤ c ∧ c ≤ 'Z' then Char.ofNat (c.toNat + 32) else c

def strLower (s : String) : String := String.mk (s.data.map lowerChar)

/-- `SymbolTable.lookup`: outward search that marks the found variable used
    (a mutation of the stored object); also reports which frame held it. -/
def lookupScopes : List Scope → String → Option (VariableInfo × Nat) × List Scope
  | [], _ => (none, [])
  | fr :: rest, name =>
      match getA fr name with
      | some vi =>
          let vi2 := { vi with is_used := true }
          (some (vi2, 0), setA fr name vi2 :: rest)
      | none =>
          let p := lookupScopes rest name
          (p.1.map (fun q => (q.1, q.2 + 1)), fr :: p.2)

/-- Field mutation through the reference Python kept from the lookup:
    update the entry for `name` in the `i`-th frame outward. -/
def updateVarAt : List Scope → Nat → String → (VariableInfo → VariableInfo) →
    List Scope
  | [], _, _, _ => []
  | fr :: rest, 0, name, f =>
      (match getA fr name with
       | some vi => setA fr name (f vi)
       | none => fr) :: rest
  | fr :: rest, i + 1, name, f => fr :: updateVarAt rest i name f

/-- `(return_type, param_types)` table `BUILTIN_FUNCTIONS`. -/
def BUILTIN_FUNCTIONS : List (String × String) :=
  [("print", "void"), ("input", "string"), ("to_string", "string"),
   ("to_int", "int"), ("to_float", "float"), ("abs", "number"),
   ("min", "number"), ("max", "number"), ("sqrt", "float"),
   ("pow", "number"), ("len", "int"), ("assert", "void"), ("panic", "void")]

/-- `SemanticAnalyzer.check_type_compatibility`. -/
def check_type_compatibility (expected actual : String) : Bool :=
  if expected = actual then true
  else if expected = "float" ∧ actual = "int" then true
  else if expected = "number" ∧ (actual = "int" ∨ actual = "float") then true
  else false

/-- `SemanticAnalyzer.infer_type` (side effect: `Var` lookups mark the
    variable used, so the scope chain is threaded through). -/
def inferType : Nat → List Scope → ASTNode → Except SemExc (String × List Scope)
  | 0, _, _ => .error (.host .recursionError)
  | fuel + 1, scopes, node =>
    let t := node.type
    if t = "Number" then
      .ok (if (nodeValStr node.value).data.contains '.' then "float" else "int", scopes)
    else if t = "String" then .ok ("string", scopes)
    else if t = "Bool" then .ok ("bool", scopes)
    else if t = "Var" then
      match node.value with
      | .vstr s =>
          let p := lookupScopes scopes s
          match p.1 with
          | some (vi, _) => .ok (vi.var_type, p.2)
          | none => .ok ("unknown", p.2)
      | _ => .ok ("unknown", scopes)
    else if t = "BinOp" then
      match node.children with
      | c0 :: c1 :: _ => do
          let (left, scopes1) ← inferType fuel scopes c0
          let (right, scopes2) ← inferType fuel scopes1 c1
          if node.value = NodeValue.vstr "+" ∧ (left = "string" ∨ right = "string") then
            .ok ("string", scopes2)
          else if left = "float" ∨ right = "float" then .ok ("float", scopes2)
          else if left = "int" ∧ right = "int" then .ok ("int", scopes2)
          else .ok ("unknown", scopes2)
      | _ => .error (.host (.indexError "list index out of range"))
    else if t = "UnaryOp" then
      match node.children with
      | c0 :: _ => inferType fuel scopes c0
      | [] => .error (.host (.indexError "list index out of range"))
    else if t = "Call" then
      match node.value with
      | .vstr s =>
          match getA BUILTIN_FUNCTIONS s with
          | some rt => .ok (rt, scopes)
          | none => .ok ("unknown", scopes)
      | _ => .ok ("unknown", scopes)
    else .ok ("unknown", scopes)

def appendError (st : SemSt) (msg : String) (line : Option Nat) : SemSt :=
  { st with errors := st.errors ++ [⟨msg, line⟩] }

/-- `SymbolTable.get_unused_variables` plus the warning formatting of
    `exit_scope` (every `line` is `None`: `ASTNode` has no `line`
    attribute, so `getattr(node, "line", None)` always yields `None`). -/
def unusedWarnings (fr : Scope) : List String :=
  (fr.filter (fun p => !p.2.is_used && p.2.name ≠ "_")).map (fun p =>
    "Warning at line " ++ (match p.2.line with
      | some n => toString n | none => "None") ++
    ": Variable '" ++ p.2.name ++ "' declared but never used")

/-- `SemanticAnalyzer.exit_scope` (no pop at the root). -/
def exitScope (st : SemSt) : SemSt :=
  match st.scopes with
  | fr :: rest =>
      let st2 := { st with warnings := st.warnings ++ unusedWarnings fr }
      if rest.isEmpty then st2 else { st2 with scopes := rest }
  | [] => st

/-- Parameter declarations in `visit_function` — unlike every other
    `declare` call site, these are not wrapped in `try/except`. -/
def declareParams : SemSt → List String → Except SemExc SemSt
  | st, [] => .ok st
  | st, p :: ps => do
      let st1 ← declare st p "unknown" "let" none true
      declareParams st1 ps

mutual

/-- `SemanticAnalyzer.visit`: dispatch on `visit_<type.lower()>` with
    `generic_visit` as fallback, exactly mirroring the defined visitors. -/
def visit : Nat → SemSt → ASTNode → Except SemExc SemSt
  | 0, _, _ => .error (.host .recursionError)
  | fuel + 1, st, node =>
    let m := strLower node.type
    if m = "program" then visitList fuel st node.children
    else if m = "vardecl" then
      match node.value with
      | .vpair kind name => do
          let st1 ← match node.children with
            | [] => pure st
            | c :: _ => visit fuel st c
          let (init_type, scopes1) ← match node.children with
            | [] => pure ("unknown", st1.scopes)
            | c :: _ => inferType fuel st1.scopes c
          let st2 := { st1 with scopes := scopes1 }
          match declare st2 name init_type kind none (!node.children.isEmpty) with
          | .ok st3 => .ok st3
          | .error (.sem e) => .ok { st2 with errors := st2.errors ++ [e] }
          | .error (.host e) => .error (.host e)
      | _ => .error (.host (.typeError "cannot unpack non-sequence VarDecl value"))
    else if m = "assign" then
      let name := nodeValStr node.value
      let p := match node.value with
        | .vstr s => lookupScopes st.scopes s
        | _ => (none, st.scopes)
      let st1 := { st with scopes := p.2 }
      match p.1 with
      | none => .ok (appendError st1 ("Variable '" ++ name ++ "' not declared") none)
      | some (vi, depth) => do
          let st2 :=
            if !vi.is_mutable then
              if vi.is_const then
                appendError st1 ("Cannot assign to const variable '" ++ name ++ "'") none
              else
                appendError st1 ("Cannot assign to immutable variable '" ++ name ++
                  "' (declared with 'let')") none
            else st1
          let st4 ← match node.children with
            | [] => pure st2
            | c :: _ => do
                let st3 ← visit fuel st2 c
                let (rhs_type, scopes3) ← inferType fuel st3.scopes c
                let st3b := { st3 with scopes := scopes3 }
                if vi.var_type ≠ "unknown" ∧
                    !check_type_compatibility vi.var_type rhs_type then
                  pure (appendError st3b ("Type mismatch: cannot assign " ++
                    rhs_type ++ " to " ++ vi.var_type ++ " variable '" ++ name ++ "'") none)
                else pure st3b
          let scopes4 := updateVarAt st4.scopes depth name
            (fun v => { v with is_initialized := true })
          .ok { st4 with scopes := scopes4 }
    else if m = "var" then
      let name := nodeValStr node.value
      let p := match node.value with
        | .vstr s => lookupScopes st.scopes s
        | _ => (none, st.scopes)
      let st1 := { st with scopes := p.2 }
      match p.1 with
      | none => .ok (appendError st1 ("Variable '" ++ name ++ "' not declared") none)
      | some (vi, _) =>
          if !vi.is_initialized then
            .ok (appendError st1 ("Variable '" ++ name ++ "' used before initialization") none)
          else .ok st1
    else if m = "binop" then visitList fuel st node.children
    else if m = "unaryop" then visitList fuel st node.children
    else if m = "call" then
      let isBuiltin := match node.value with
        | .vstr s => (getA BUILTIN_FUNCTIONS s).isSome
        | _ => false
      if isBuiltin then visitList fuel st node.children
      else
        let name := nodeValStr node.value
        let p := match node.value with
          | .vstr s => lookupScopes st.scopes s
          | _ => (none, st.scopes)
        let st1 := { st with scopes := p.2 }
        let st2 := match p.1 with
          | some (vi, _) =>
              if vi.var_type ≠ "function" then
                appendError st1 ("Unknown function '" ++ name ++ "'") none
              else st1
          | none => appendError st1 ("Unknown function '" ++ name ++ "'") none
        visitList fuel st2 node.children
    else if m = "number" then .ok st
    else if m = "string" then .ok st
    else if m = "bool" then .ok st
    else if m = "function" then
      match node.value with
      | .vsig name params => do
          let st1 ← match declare st name "function" "const" none false with
            | .ok s => pure s
            | .error (.sem e) => pure { st with errors := st.errors ++ [e] }
            | .error (.host e) => Except.error (.host e)
          let st2 := { st1 with scopes := [] :: st1.scopes }
          let st3 ← declareParams st2 params
          let st4 ← visitList fuel st3 node.children
          .ok (exitScope st4)
      | _ => .error (.host (.typeError "cannot unpack non-sequence Function value"))
    else
      .ok (appendError st ("Unknown AST node type: " ++ node.type) none)
termination_by structural fuel st node => fuel

def visitList : Nat → SemSt → List ASTNode → Except SemExc SemSt
  | 0, _, _ => .error (.host .recursionError)
  | _ + 1, st, [] => .ok st
  | fuel + 1, st, c :: cs => do
      let st1 ← visit fuel st c
      visitList fuel st1 cs
termination_by structural fuel st l => fuel

end

/-- `SemanticAnalyzer.analyze`: run the traversal (which may itself raise)
    and report success as emptiness of the error list. -/
def analyze (fuel : Nat) (ast : ASTNode) : Except SemExc (SemSt × Bool) :=
  (visit fuel initSemSt ast).map (fun st => (st, st.errors.isEmpty))

/-! ## Observables used in claim statements -/

/-- Is the id present in the interpreter's heap? -/
def heapPresent (σ : Interp) (id : Nat) : Bool :=
  (getA σ.heap.memory id).isSome

/-- Is the id reachable from the live environment stack, i.e. bound under
    some name in some frame? -/
def reachesId (σ : Interp) (id : Nat) : Bool :=
  σ.env_stack.any (fun fr => fr.any (fun p =>
    match p.2 with
    | .objId n => n = id
    | _ => false))

/-- Evaluate a state predicate on the final state of a successful
    evaluation (`false` on failure). -/
def afterEval (x : Except PyErr (Interp × Res)) (f : Interp → Bool) : Bool :=
  match x with
  | .ok (σ, _) => f σ
  | .error _ => false

/-- The observable yield of an evaluation: the dereferenced result value,
    `none` for Python `None`. -/
def resultDeref (x : Except PyErr (Interp × Res)) :
    Except PyErr (Option Value) :=
  match x with
  | .ok (σ, .val v) =>
      if v.isPyNone then .ok none else (heapGet σ.heap v).map some
  | .ok (_, .ret _) => .error (.runtimeError "uncaught ReturnValue")
  | .error e => .error e

/-- Count the errors whose message quotes the given variable name. -/
def countNamedErrors (errs : List SemanticError) (nm : String) : Nat :=
  (errs.filter (fun e => hasSub e.message.data ("'" ++ nm ++ "'").data)).length

/-- Count the mutability errors (both the `let` and the `const` message
    start with this prefix; no other analyzer message does). -/
def countMutErrors (errs : List SemanticError) : Nat :=
  (errs.filter (fun e => textLeads "Cannot assign to " e.message)).length

mutual

/-- No `Assign` node anywhere in the tree — the shape of every
    parser-produced expression (assignment is statement-only syntax).
    `visit_assign` is the only visitor emitting a mutability error. -/
def noAssign : ASTNode → Bool
  | .mk t _ cs => if strLower t = "assign" then false else noAssignList cs

def noAssignList : List ASTNode → Bool
  | [] => true
  | c :: cs => noAssign c && noAssignList cs

end

/-- Errors of a completed analysis. -/
def analyzeErrors (fuel : Nat) (ast : ASTNode) : Option (List SemanticError) :=
  match analyze fuel ast with
  | .ok (st, _) => some st.errors
  | .error _ => none

/-! ## Concrete programs used by counterexamples and failing-input
    theorems -/

/-- `fn f(a) { a = a; } let x = f(1);` — the argument literal's id leaks,
    and the param's self-assignment drives its refcount to 0 while still
    bound, so the call hands a dangling id to `x`. -/
def leakProg : ASTNode :=
  .mk "Program" .vnone [
    .mk "Function" (.vsig "f" ["a"]) [
      .mk "Assign" (.vstr "a") [.mk "Var" (.vstr "a") []]],
    .mk "VarDecl" (.vpair "let" "x") [
      .mk "Call" (.vstr "f") [.mk "Number" (.vstr "1") []]]]

/-- `fn f(a, a) {}` — duplicate parameter names. -/
def dupParamProg : ASTNode :=
  .mk "Program" .vnone [.mk "Function" (.vsig "f" ["a", "a"]) []]

/-- `let x = 1; x = "a";`. -/
def cexC7prog : ASTNode :=
  .mk "Program" .vnone [
    .mk "VarDecl" (.vpair "let" "x") [.mk "Number" (.vstr "1") []],
    .mk "Assign" (.vstr "x") [.mk "String" (.vstr "\"a\"") []]]

/-- `fn f() { mut x = 5; }` as a callable value. -/
def cexC8fn : ASTNode :=
  .mk "Function" (.vsig "f" []) [
    .mk "VarDecl" (.vpair "mut" "x") [.mk "Number" (.vstr "5") []]]

/-- A state in which `f` is already defined (as after evaluating the
    `fn f() { ... }` statement from a fresh interpreter). -/
def cexC8state : Interp :=
  { heap := { memory := [], ref_count := [], next_id := 0 },
    env_stack := [[(.vstr "f", .fnNode cexC8fn)]], stdin := [], stdout := [] }

/-- `f()` as a statement-level call. -/
def cexC8call : ASTNode := .mk "Call" (.vstr "f") []

def cexC4toks : List Token :=
  [⟨"IDENT", "a", 1, 1⟩, ⟨"OP", "==", 1, 3⟩, ⟨"IDENT", "b", 1, 6⟩,
   ⟨"OP", "<", 1, 8⟩, ⟨"IDENT", "c", 1, 10⟩, ⟨"EOF", "", 1, 11⟩]

/-- A state in which `x` is already declared as `let x : int` (as after
    analyzing `let x = 1;` from a fresh analyzer, warnings aside). -/
def cexC7st : SemSt :=
  { scopes := [[("x", mkVariableInfo "x" "int" "let" none true)]],
    errors := [], warnings := [] }

/-- `x = "a";` as an Assign node. -/
def cexC7assign : ASTNode :=
  .mk "Assign" (.vstr "x") [.mk "String" (.vstr "\"a\"") []]

/-- The `x` entry after the lookup and initialization marking. -/
def cexC7vi : VariableInfo :=
  ⟨"x", "int", "let", none, true, false, false, true⟩

/-- The analyzer state after visiting `cexC7assign` from `cexC7st`. -/
def cexC7final : SemSt :=
  { scopes := [[("x", cexC7vi)]],
    errors :=
      [⟨"Cannot assign to immutable variable 'x' (declared with 'let')", none⟩,
       ⟨"Type mismatch: cannot assign string to int variable 'x'", none⟩],
    warnings := [] }

/-- The final state of evaluating `leakProg` from a fresh interpreter. -/
def leakFinal : Interp :=
  { heap := { memory := [(0, .vint 1)], ref_count := [(0, 1)], next_id := 2 },
    env_stack := [[(.vstr "f", .fnNode (.mk "Function" (.vsig "f" ["a"])
        [.mk "Assign" (.vstr "a") [.mk "Var" (.vstr "a") []]])),
      (.vstr "x", .objId 1)]],
    stdin := [], stdout := [] }

/-- The final state of evaluating `f()` from `cexC8state`. -/
def cexC8final : Interp :=
  { heap := { memory := [(0, .vint 5)], ref_count := [(0, 1)], next_id := 1 },
    env_stack := [[(.vstr "f", .fnNode cexC8fn)]], stdin := [], stdout := [] }

def cexC4toks2 : List Token :=
  [⟨"IDENT", "a", 1, 1⟩, ⟨"OP", "<", 1, 3⟩, ⟨"IDENT", "b", 1, 5⟩,
   ⟨"OP", ">", 1, 7⟩, ⟨"IDENT", "c", 1, 9⟩, ⟨"EOF", "", 1, 10⟩]

/-! ## Heap-invariant machinery

    `HeapInv` is the per-entry half of the spec's heap invariant: `memory`
    and `ref_count` share a key set, and every count is at least 1.  It is
    preserved by each of the three heap mutators, hence by every successful
    evaluation step. -/

theorem getA_mem {K α : Type} [DecidableEq K] :
    ∀ (l : List (K × α)) (k : K) (v : α), getA l k = some v → (k, v) ∈ l := by
  intro l
  induction l with
  | nil => intro k v h; simp [getA] at h
  | cons p ps ih =>
      intro k v h
      rw [getA] at h
      by_cases hp : p.1 = k
      · rw [if_pos hp] at h
        injection h with h2
        subst h2
        rw [← hp]
        exact List.mem_cons_self _ _
      · rw [if_neg hp] at h
        exact List.mem_cons_of_mem _ (ih k v h)

theorem getA_setA_self {K α : Type} [DecidableEq K] :
    ∀ (l : List (K × α)) (k : K) (c : α), getA l k = some c →
      ∀ (v : α), getA (setA l k v) k = some v := by
  intro l
  induction l with
  | nil => intro k c h; simp [getA] at h
  | cons p ps ih =>
      intro k c h v
      rw [setA]
      by_cases hp : p.1 = k
      · rw [if_pos hp, getA, if_pos rfl]
      · rw [if_neg hp, getA, if_neg hp]
        rw [getA, if_neg hp] at h
        exact ih k c h v

theorem getA_setA_ne {K α : Type} [DecidableEq K] :
    ∀ (l : List (K × α)) (k m : K) (v : α), m ≠ k →
      getA (setA l k v) m = getA l m := by
  intro l
  induction l with
  | nil => intro k m v _; rfl
  | cons p ps ih =>
      intro k m v hne
      rw [setA]
      by_cases hp : p.1 = k
      · rw [if_pos hp, getA, getA]
        have : ¬ (k = m) := fun h => hne h.symm
        rw [if_neg this, if_neg (by rw [hp]; exact fun h => hne h.symm)]
      · rw [if_neg hp, getA, getA]
        by_cases hm : p.1 = m
        · rw [if_pos hm, if_pos hm]
        · rw [if_neg hm, if_neg hm]
          exact ih k m v hne

theorem mem_eraseA {K α : Type} [DecidableEq K] {l : List (K × α)} {k : K}
    {q : K × α} (h : q ∈ eraseA l k) : q ∈ l ∧ q.1 ≠ k := by
  rw [eraseA] at h
  have := List.mem_filter.mp h
  exact ⟨this.1, by simpa using this.2⟩

theorem getA_eraseA_ne {K α : Type} [DecidableEq K] :
    ∀ (l : List (K × α)) (k m : K), m ≠ k →
      getA (eraseA l k) m = getA l m := by
  intro l
  induction l with
  | nil => intro k m _; rfl
  | cons p ps ih =>
      intro k m hne
      rw [eraseA, List.filter]
      by_cases hp : p.1 = k
      · have : (decide (p.1 ≠ k)) = false := by simp [hp]
        rw [this]
        rw [getA, if_neg (by rw [hp]; exact fun h => hne h.symm)]
        exact ih k m hne
      · have : (decide (p.1 ≠ k)) = true := by simp [hp]
        rw [this, getA, getA]
        by_cases hm : p.1 = m
        · rw [if_pos hm, if_pos hm]
        · rw [if_neg hm, if_neg hm]
          exact ih k m hne

/-- The per-entry heap invariant: every id present in `memory` has a
    `ref_count` entry of at least 1. -/
def HeapInv (h : HeapSt) : Prop :=
  ∀ n v, (n, v) ∈ h.memory → ∃ c, getA h.ref_count n = some c ∧ 1 ≤ c

theorem getA_cons {K α : Type} [DecidableEq K] (p : K × α) (ps : List (K × α))
    (k : K) : getA (p :: ps) k = if p.1 = k then some p.2 else getA ps k := rfl

theorem heapInv_allocate (h : HeapSt) (v : Value) (hi : HeapInv h) :
    HeapInv (allocate h v).2 := by
  intro n w hmem
  have hmem2 : (n, w) ∈ (h.next_id, v) :: h.memory := hmem
  show ∃ c, getA ((h.next_id, 1) :: h.ref_count) n = some c ∧ 1 ≤ c
  rcases List.mem_cons.mp hmem2 with he | ht
  · have hn : h.next_id = n := (congrArg Prod.fst he).symm
    exact ⟨1, by rw [getA_cons, if_pos hn], le_refl 1⟩
  · by_cases hn : h.next_id = n
    · exact ⟨1, by rw [getA_cons, if_pos hn], le_refl 1⟩
    · rcases hi n w ht with ⟨c, hc, hc1⟩
      exact ⟨c, by rw [getA_cons, if_neg hn]; exact hc, hc1⟩

theorem heapInv_retain (h : HeapSt) (v : EnvVal) (hi : HeapInv h) :
    HeapInv (retain h v) := by
  cases v with
  | objId n =>
      cases hg : getA h.ref_count n with
      | none =>
          have hr : retain h (.objId n) = h := by simp [retain, hg]
          rw [hr]; exact hi
      | some c =>
          have hr : retain h (.objId n) =
              { h with ref_count := setA h.ref_count n (c + 1) } := by
            simp [retain, hg]
          rw [hr]
          intro m w hmem
          rcases hi m w hmem with ⟨cm, hcm, hcm1⟩
          by_cases hmn : m = n
          · subst hmn
            exact ⟨c + 1, getA_setA_self _ _ _ hg _, Nat.le_add_left 1 c⟩
          · exact ⟨cm, by rw [getA_setA_ne _ _ _ _ hmn]; exact hcm, hcm1⟩
  | pynone =>
      have hr : retain h .pynone = h := by simp [retain]
      rw [hr]; exact hi
  | fnNode f =>
      have hr : retain h (.fnNode f) = h := by simp [retain]
      rw [hr]; exact hi

theorem heapInv_release (h : HeapSt) (v : EnvVal) (hi : HeapInv h) :
    HeapInv (release h v) := by
  cases v with
  | objId n =>
      cases hg : getA h.ref_count n with
      | none =>
          have hr : release h (.objId n) = h := by simp [release, hg]
          rw [hr]; exact hi
      | some c =>
          by_cases hc : c ≤ 1
          · have hr : release h (.objId n) =
                { h with memory := eraseA h.memory n,
                         ref_count := eraseA h.ref_count n } := by
              simp [release, hg, hc]
            rw [hr]
            intro m w hmem
            have hm := mem_eraseA hmem
            rcases hi m w hm.1 with ⟨cm, hcm, hcm1⟩
            exact ⟨cm, by rw [getA_eraseA_ne _ _ _ hm.2]; exact hcm, hcm1⟩
          · have hr : release h (.objId n) =
                { h with ref_count := setA h.ref_count n (c - 1) } := by
              simp [release, hg, hc]
            rw [hr]
            intro m w hmem
            rcases hi m w hmem with ⟨cm, hcm, hcm1⟩
            by_cases hmn : m = n
            · subst hmn
              exact ⟨c - 1, getA_setA_self _ _ _ hg _, by omega⟩
            · exact ⟨cm, by rw [getA_setA_ne _ _ _ _ hmn]; exact hcm, hcm1⟩
  | pynone =>
      have hr : release h .pynone = h := by simp [release]
      rw [hr]; exact hi
  | fnNode f =>
      have hr : release h (.fnNode f) = h := by simp [release]
      rw [hr]; exact hi

theorem heapInv_releaseFold :
    ∀ (fr : List (NodeValue × EnvVal)) (h : HeapSt), HeapInv h →
      HeapInv (fr.foldl (fun h p => release h p.2) h) := by
  intro fr
  induction fr with
  | nil => intro h hi; exact hi
  | cons p ps ih =>
      intro h hi
      exact ih _ (heapInv_release h p.2 hi)

/-- The initial heap satisfies the invariant vacuously. -/
theorem heapInv_init (stdin : List String) : HeapInv (initInterp stdin).heap := by
  intro n v hmem
  simp [initInterp] at hmem

/-- What every successfully completed evaluation step preserves: the heap
    invariant, and the depth of the environment stack. -/
def Pres (σ σ' : Interp) : Prop :=
  (HeapInv σ.heap → HeapInv σ'.heap) ∧
  σ'.env_stack.length = σ.env_stack.length

theorem presRefl (σ : Interp) : Pres σ σ := ⟨fun hi => hi, rfl⟩

theorem presTrans {σ1 σ2 σ3 : Interp} (a : Pres σ1 σ2) (b : Pres σ2 σ3) :
    Pres σ1 σ3 :=
  ⟨fun h => b.1 (a.1 h), by rw [b.2, a.2]⟩

theorem ok_pair_inj {ε α β : Type} {a : α} {b : β} {a' : α} {b' : β}
    (h : (Except.ok (a, b) : Except ε (α × β)) = .ok (a', b')) :
    a = a' ∧ b = b' := by
  injection h with h1
  exact ⟨congrArg Prod.fst h1, congrArg Prod.snd h1⟩

theorem except_map_ok {ε α β : Type} {f : α → β} {x : Except ε α} {b : β}
    (h : Except.map f x = .ok b) : ∃ a, x = .ok a ∧ f a = b := by
  cases x with
  | error e => simp [Except.map] at h
  | ok a =>
      refine ⟨a, rfl, ?_⟩
      simpa [Except.map] using h

theorem except_bind_ok {ε α β : Type} {x : Except ε α} {f : α → Except ε β}
    {b : β} (h : (x >>= f) = .ok b) : ∃ a, x = .ok a ∧ f a = .ok b := by
  cases x with
  | error e => simp [Bind.bind, Except.bind] at h
  | ok a => exact ⟨a, rfl, h⟩

theorem bindVal_ok {x : Except PyErr (Interp × Res)}
    {k : Interp → EnvVal → Except PyErr (Interp × Res)} {σ' : Interp} {r : Res}
    (h : bindVal x k = .ok (σ', r)) :
    (∃ σ w, x = .ok (σ, Res.ret w) ∧ σ' = σ ∧ r = Res.ret w) ∨
    (∃ σ v, x = .ok (σ, Res.val v) ∧ k σ v = .ok (σ', r)) := by
  unfold bindVal at h
  cases x with
  | error e => simp at h
  | ok p =>
      rcases p with ⟨σ, rv⟩
      cases rv with
      | ret w =>
          rcases ok_pair_inj h with ⟨h1, h2⟩
          exact Or.inl ⟨σ, w, rfl, h1.symm, h2.symm⟩
      | val v => exact Or.inr ⟨σ, v, rfl, h⟩

theorem current_env_set_pres {σ : Interp} {k : NodeValue} {v : EnvVal}
    {σ' : Interp} (h : current_env_set σ k v = .ok σ') :
    σ'.heap = σ.heap ∧ σ'.env_stack.length = σ.env_stack.length := by
  unfold current_env_set at h
  cases hs : σ.env_stack with
  | nil => rw [hs] at h; simp at h
  | cons fr rest =>
      rw [hs] at h
      injection h with h1
      subst h1
      exact ⟨rfl, rfl⟩

theorem pop_env_pres {σ σ' : Interp} (h : pop_env σ = .ok σ') :
    (HeapInv σ.heap → HeapInv σ'.heap) ∧
    σ'.env_stack.length + 1 = σ.env_stack.length := by
  unfold pop_env at h
  cases hs : σ.env_stack with
  | nil => rw [hs] at h; simp at h
  | cons fr rest =>
      rw [hs] at h
      injection h with h1
      subst h1
      exact ⟨fun hi => heapInv_releaseFold fr σ.heap hi, rfl⟩

theorem assignLoop_pres :
    ∀ (stack : List Frame) (h : HeapSt) (k : NodeValue) (v : EnvVal)
      (h' : HeapSt) (stack' : List Frame),
      assignLoop h k v stack = some (h', stack') →
      (HeapInv h → HeapInv h') ∧ stack'.length = stack.length := by
  intro stack
  induction stack with
  | nil => intro h k v h' stack' hh; simp [assignLoop] at hh
  | cons fr rest ih =>
      intro h k v h' stack' hh
      rw [assignLoop] at hh
      cases hg : getA fr k with
      | some old =>
          rw [hg] at hh
          injection hh with h1
          have h2 : retain (release h old) v = h' := congrArg Prod.fst h1
          have h3 : dictSet fr k v :: rest = stack' := congrArg Prod.snd h1
          subst h2; subst h3
          exact ⟨fun hi => heapInv_retain _ _ (heapInv_release _ _ hi), rfl⟩
      | none =>
          rw [hg] at hh
          rcases Option.map_eq_some'.mp hh with ⟨p, hp, he⟩
          have h2 : p.1 = h' := congrArg Prod.fst he
          have h3 : fr :: p.2 = stack' := congrArg Prod.snd he
          subst h2; subst h3
          rcases ih h k v p.1 p.2 (by rw [hp]) with ⟨hi, hl⟩
          exact ⟨hi, by simp [hl]⟩

theorem assignVar_pres {σ : Interp} {k : NodeValue} {v : EnvVal} {σ' : Interp}
    (h : assignVar σ k v = .ok σ') : Pres σ σ' := by
  unfold assignVar at h
  cases hl : assignLoop σ.heap k v σ.env_stack with
  | some p =>
      rw [hl] at h
      injection h with h1
      subst h1
      rcases assignLoop_pres _ _ _ _ _ _ hl with ⟨hi, hlen⟩
      exact ⟨hi, hlen⟩
  | none =>
      rw [hl] at h
      rcases except_map_ok h with ⟨σ1, hset, he⟩
      rcases current_env_set_pres hset with ⟨hh, hlen⟩
      subst he
      exact ⟨fun hi => heapInv_retain _ _ (hh ▸ hi), hlen⟩

theorem bindParams_pres :
    ∀ (ps : List String) (ws : List Value) (σ σ' : Interp),
      bindParams σ ps ws = .ok σ' → Pres σ σ' := by
  intro ps
  induction ps with
  | nil =>
      intro ws σ σ' h
      cases ws <;> · injection h with h1; subst h1; exact presRefl σ
  | cons p pstl ih =>
      intro ws σ σ' h
      cases ws with
      | nil => injection h with h1; subst h1; exact presRefl σ
      | cons w wstl =>
          rw [bindParams] at h
          cases hset : current_env_set (allocEnv σ w).1 (.vstr p) (allocEnv σ w).2 with
          | error e => rw [hset] at h; simp at h
          | ok σ2 =>
              rw [hset] at h
              have p1 : Pres σ (allocEnv σ w).1 :=
                ⟨fun hi => heapInv_allocate _ _ hi, rfl⟩
              rcases current_env_set_pres hset with ⟨hh, hlen⟩
              have p2 : Pres (allocEnv σ w).1 σ2 := ⟨fun hi => hh ▸ hi, hlen⟩
              exact presTrans (presTrans p1 p2) (ih wstl σ2 σ' h)

theorem builtinPrint_pres {H args σ σ' v}
    (h : builtinPrint H args σ = .ok (σ', v)) : Pres σ σ' := by
  unfold builtinPrint at h
  rcases ok_pair_inj h with ⟨h1, _⟩
  rw [← h1]
  exact ⟨fun hi => hi, rfl⟩

theorem builtinInput_pres {H args σ σ' v}
    (h : builtinInput H args σ = .ok (σ', v)) : Pres σ σ' := by
  unfold builtinInput at h
  cases hs : σ.stdin with
  | nil => rw [hs] at h; exact Except.noConfusion h
  | cons l rest =>
      rw [hs] at h
      rcases ok_pair_inj h with ⟨h1, _⟩
      rw [← h1]
      exact ⟨fun hi => heapInv_allocate _ _ hi, rfl⟩

theorem builtinToInt_pres {args σ σ' v}
    (h : builtinToInt args σ = .ok (σ', v)) : Pres σ σ' := by
  unfold builtinToInt at h
  repeat'
    first
      | split at h
      | (replace h := except_bind_ok h; rcases h with ⟨_, _, h⟩;
         try dsimp only [] at h)
  all_goals
    first
      | exact Except.noConfusion h
      | (rcases ok_pair_inj h with ⟨h1, _⟩; rw [← h1];
          first
            | exact ⟨fun hi => hi, rfl⟩
            | exact ⟨fun hi => heapInv_allocate _ _ hi, rfl⟩)

theorem builtinToFloat_pres {args σ σ' v}
    (h : builtinToFloat args σ = .ok (σ', v)) : Pres σ σ' := by
  unfold builtinToFloat at h
  repeat'
    first
      | split at h
      | (replace h := except_bind_ok h; rcases h with ⟨_, _, h⟩;
         try dsimp only [] at h)
  all_goals
    first
      | exact Except.noConfusion h
      | (rcases ok_pair_inj h with ⟨h1, _⟩; rw [← h1];
          first
            | exact ⟨fun hi => hi, rfl⟩
            | exact ⟨fun hi => heapInv_allocate _ _ hi, rfl⟩)

theorem builtinToString_pres {H args σ σ' v}
    (h : builtinToString H args σ = .ok (σ', v)) : Pres σ σ' := by
  unfold builtinToString at h
  repeat'
    first
      | split at h
      | (replace h := except_bind_ok h; rcases h with ⟨_, _, h⟩;
         try dsimp only [] at h)
  all_goals
    first
      | exact Except.noConfusion h
      | (rcases ok_pair_inj h with ⟨h1, _⟩; rw [← h1];
          first
            | exact ⟨fun hi => hi, rfl⟩
            | exact ⟨fun hi => heapInv_allocate _ _ hi, rfl⟩)

theorem builtinAbs_pres {args σ σ' v}
    (h : builtinAbs args σ = .ok (σ', v)) : Pres σ σ' := by
  unfold builtinAbs at h
  repeat'
    first
      | split at h
      | (replace h := except_bind_ok h; rcases h with ⟨_, _, h⟩;
         try dsimp only [] at h)
  all_goals
    first
      | exact Except.noConfusion h
      | (rcases ok_pair_inj h with ⟨h1, _⟩; rw [← h1];
          first
            | exact ⟨fun hi => hi, rfl⟩
            | exact ⟨fun hi => heapInv_allocate _ _ hi, rfl⟩)

theorem builtinMin_pres {args σ σ' v}
    (h : builtinMin args σ = .ok (σ', v)) : Pres σ σ' := by
  unfold builtinMin at h
  repeat'
    first
      | split at h
      | (replace h := except_bind_ok h; rcases h with ⟨_, _, h⟩;
         try dsimp only [] at h)
  all_goals
    first
      | exact Except.noConfusion h
      | (rcases ok_pair_inj h with ⟨h1, _⟩; rw [← h1];
          first
            | exact ⟨fun hi => hi, rfl⟩
            | exact ⟨fun hi => heapInv_allocate _ _ hi, rfl⟩)

theorem builtinMax_pres {args σ σ' v}
    (h : builtinMax args σ = .ok (σ', v)) : Pres σ σ' := by
  unfold builtinMax at h
  repeat'
    first
      | split at h
      | (replace h := except_bind_ok h; rcases h with ⟨_, _, h⟩;
         try dsimp only [] at h)
  all_goals
    first
      | exact Except.noConfusion h
      | (rcases ok_pair_inj h with ⟨h1, _⟩; rw [← h1];
          first
            | exact ⟨fun hi => hi, rfl⟩
            | exact ⟨fun hi => heapInv_allocate _ _ hi, rfl⟩)

theorem builtinSqrt_pres {H args σ σ' v}
    (h : builtinSqrt H args σ = .ok (σ', v)) : Pres σ σ' := by
  unfold builtinSqrt at h
  repeat'
    first
      | split at h
      | (replace h := except_bind_ok h; rcases h with ⟨_, _, h⟩;
         try dsimp only [] at h)
  all_goals
    first
      | exact Except.noConfusion h
      | (rcases ok_pair_inj h with ⟨h1, _⟩; rw [← h1];
          first
            | exact ⟨fun hi => hi, rfl⟩
            | exact ⟨fun hi => heapInv_allocate _ _ hi, rfl⟩)

theorem builtinPow_pres {H args σ σ' v}
    (h : builtinPow H args σ = .ok (σ', v)) : Pres σ σ' := by
  unfold builtinPow at h
  repeat'
    first
      | split at h
      | (replace h := except_bind_ok h; rcases h with ⟨_, _, h⟩;
         try dsimp only [] at h)
  all_goals
    first
      | exact Except.noConfusion h
      | (rcases ok_pair_inj h with ⟨h1, _⟩; rw [← h1];
          first
            | exact ⟨fun hi => hi, rfl⟩
            | exact ⟨fun hi => heapInv_allocate _ _ hi, rfl⟩)

theorem builtinLen_pres {args σ σ' v}
    (h : builtinLen args σ = .ok (σ', v)) : Pres σ σ' := by
  unfold builtinLen at h
  repeat'
    first
      | split at h
      | (replace h := except_bind_ok h; rcases h with ⟨_, _, h⟩;
         try dsimp only [] at h)
  all_goals
    first
      | exact Except.noConfusion h
      | (rcases ok_pair_inj h with ⟨h1, _⟩; rw [← h1];
          first
            | exact ⟨fun hi => hi, rfl⟩
            | exact ⟨fun hi => heapInv_allocate _ _ hi, rfl⟩)

theorem builtinAssert_pres {args σ σ' v}
    (h : builtinAssert args σ = .ok (σ', v)) : Pres σ σ' := by
  unfold builtinAssert at h
  repeat'
    first
      | split at h
      | (replace h := except_bind_ok h; rcases h with ⟨_, _, h⟩;
         try dsimp only [] at h)
  all_goals
    first
      | exact Except.noConfusion h
      | (rcases ok_pair_inj h with ⟨h1, _⟩; rw [← h1];
          first
            | exact ⟨fun hi => hi, rfl⟩
            | exact ⟨fun hi => heapInv_allocate _ _ hi, rfl⟩)

theorem builtinPanic_pres {H args σ σ' v}
    (h : builtinPanic H args σ = .ok (σ', v)) : Pres σ σ' := by
  unfold builtinPanic at h
  repeat'
    first
      | split at h
      | (replace h := except_bind_ok h; rcases h with ⟨_, _, h⟩;
         try dsimp only [] at h)
  all_goals exact Except.noConfusion h

theorem callBuiltin_pres {H : HostFns} {name : String} {args : List Value}
    {σ σ' : Interp} {v : EnvVal}
    (h : callBuiltin H name args σ = .ok (σ', v)) : Pres σ σ' := by
  unfold callBuiltin at h
  by_cases c0 : name = "print"
  · rw [if_pos c0] at h
    exact builtinPrint_pres h
  rw [if_neg c0] at h
  by_cases c1 : name = "input"
  · rw [if_pos c1] at h
    exact builtinInput_pres h
  rw [if_neg c1] at h
  by_cases c2 : name = "to_int"
  · rw [if_pos c2] at h
    exact builtinToInt_pres h
  rw [if_neg c2] at h
  by_cases c3 : name = "to_float"
  · rw [if_pos c3] at h
    exact builtinToFloat_pres h
  rw [if_neg c3] at h
  by_cases c4 : name = "to_string"
  · rw [if_pos c4] at h
    exact builtinToString_pres h
  rw [if_neg c4] at h
  by_cases c5 : name = "abs"
  · rw [if_pos c5] at h
    exact builtinAbs_pres h
  rw [if_neg c5] at h
  by_cases c6 : name = "min"
  · rw [if_pos c6] at h
    exact builtinMin_pres h
  rw [if_neg c6] at h
  by_cases c7 : name = "max"
  · rw [if_pos c7] at h
    exact builtinMax_pres h
  rw [if_neg c7] at h
  by_cases c8 : name = "sqrt"
  · rw [if_pos c8] at h
    exact builtinSqrt_pres h
  rw [if_neg c8] at h
  by_cases c9 : name = "pow"
  · rw [if_pos c9] at h
    exact builtinPow_pres h
  rw [if_neg c9] at h
  by_cases c10 : name = "len"
  · rw [if_pos c10] at h
    exact builtinLen_pres h
  rw [if_neg c10] at h
  by_cases c11 : name = "assert"
  · rw [if_pos c11] at h
    exact builtinAssert_pres h
  rw [if_neg c11] at h
  by_cases c12 : name = "panic"
  · rw [if_pos c12] at h
    exact builtinPanic_pres h
  rw [if_neg c12] at h
  exact Except.noConfusion h

theorem pair_fst_eq {α β : Type} {p : α × β} {a : α} {b : β}
    (h : p = (a, b)) : p.1 = a := congrArg Prod.fst h

theorem push_env_len (σ : Interp) :
    (push_env σ).env_stack.length = σ.env_stack.length + 1 := rfl

/-- Main preservation lemma: every successfully completed evaluation step
    keeps the heap invariant and the environment-stack depth.  (On error or
    recursion exhaustion nothing is claimed — Python aborts there.) -/
theorem evalPres (fuel : Nat) : ∀ (H : HostFns),
    (∀ σ n σ2 r, evalNode H fuel σ n = .ok (σ2, r) → Pres σ σ2) ∧
    (∀ σ l last σ2 r, evalStmts H fuel σ l last = .ok (σ2, r) → Pres σ σ2) ∧
    (∀ σ l σ2 ar, evalArgs H fuel σ l = .ok (σ2, ar) → Pres σ σ2) := by
  induction fuel with
  | zero =>
      intro H
      refine ⟨?_, ?_, ?_⟩
      · intro σ n σ2 r h; exact Except.noConfusion h
      · intro σ l last σ2 r h; exact Except.noConfusion h
      · intro σ l σ2 ar h; exact Except.noConfusion h
  | succ fuel IH =>
      intro H
      obtain ⟨IH1, IH2, IH3⟩ := IH H
      refine ⟨?_, ?_, ?_⟩
      · -- evalNode
        intro σ n σ2 r h
        obtain ⟨t, val, cs⟩ := n
        unfold evalNode at h
        dsimp only [ASTNode.type, ASTNode.value, ASTNode.children] at h
        by_cases h1 : t = "Program"
        · rw [if_pos h1] at h
          exact IH2 _ _ _ _ _ h
        rw [if_neg h1] at h
        by_cases h2 : t = "VarDecl"
        · rw [if_pos h2] at h
          cases val with
          | vpair kind name =>
              cases cs with
              | nil =>
                  rcases except_map_ok h with ⟨σ1, hset, he⟩
                  rcases current_env_set_pres hset with ⟨hh, hl⟩
                  rw [← pair_fst_eq he]
                  exact ⟨fun hi => by rw [hh]; exact hi, hl⟩
              | cons c cstl =>
                  rcases bindVal_ok h with ⟨σ1, w, hx, hσ, _⟩ | ⟨σ1, v1, hx, hk⟩
                  · subst hσ; exact IH1 _ _ _ _ hx
                  · have p1 : Pres σ σ1 := IH1 _ _ _ _ hx
                    try dsimp only [] at hk
                    by_cases hv : (!v1.isPyNone) = true
                    · rw [if_pos hv] at hk
                      rcases except_map_ok hk with ⟨σ3, hset, he⟩
                      rcases current_env_set_pres hset with ⟨hh, hl⟩
                      rw [← pair_fst_eq he]
                      refine ⟨fun hi => ?_, ?_⟩
                      · rw [hh]; exact heapInv_retain _ _ (p1.1 hi)
                      · rw [hl]; exact p1.2
                    · rw [if_neg hv] at hk
                      rcases except_map_ok hk with ⟨σ3, hset, he⟩
                      rcases current_env_set_pres hset with ⟨hh, hl⟩
                      rw [← pair_fst_eq he]
                      refine ⟨fun hi => ?_, ?_⟩
                      · rw [hh]; exact p1.1 hi
                      · rw [hl]; exact p1.2
          | vnone => exact Except.noConfusion h
          | vstr s => exact Except.noConfusion h
          | vbool b => exact Except.noConfusion h
          | vsig a b => exact Except.noConfusion h
        rw [if_neg h2] at h
        by_cases h3 : t = "Assign"
        · rw [if_pos h3] at h
          cases cs with
          | nil => exact Except.noConfusion h
          | cons c cstl =>
              rcases bindVal_ok h with ⟨σ1, w, hx, hσ, _⟩ | ⟨σ1, v1, hx, hk⟩
              · subst hσ; exact IH1 _ _ _ _ hx
              · have p1 : Pres σ σ1 := IH1 _ _ _ _ hx
                try dsimp only [] at hk
                rcases except_map_ok hk with ⟨σ3, hasg, he⟩
                rw [← pair_fst_eq he]
                exact presTrans p1 (assignVar_pres hasg)
        rw [if_neg h3] at h
        by_cases h4 : t = "Var"
        · rw [if_pos h4] at h
          rcases except_map_ok h with ⟨a, _, he⟩
          rw [← pair_fst_eq he]
          exact presRefl σ
        rw [if_neg h4] at h
        by_cases h5 : t = "Number"
        · rw [if_pos h5] at h
          try dsimp only [] at h
          split at h
          · rcases except_map_ok h with ⟨q, _, he⟩
            rw [← pair_fst_eq he]
            exact ⟨fun hi => heapInv_allocate _ _ hi, rfl⟩
          · rcases except_map_ok h with ⟨q, _, he⟩
            rw [← pair_fst_eq he]
            exact ⟨fun hi => heapInv_allocate _ _ hi, rfl⟩
        rw [if_neg h5] at h
        by_cases h6 : t = "String"
        · rw [if_pos h6] at h
          rcases ok_pair_inj h with ⟨he, _⟩
          rw [← he]
          exact ⟨fun hi => heapInv_allocate _ _ hi, rfl⟩
        rw [if_neg h6] at h
        by_cases h7 : t = "Bool"
        · rw [if_pos h7] at h
          rcases ok_pair_inj h with ⟨he, _⟩
          rw [← he]
          exact ⟨fun hi => heapInv_allocate _ _ hi, rfl⟩
        rw [if_neg h7] at h
        by_cases h8 : t = "Null"
        · rw [if_pos h8] at h
          rcases ok_pair_inj h with ⟨he, _⟩
          rw [← he]
          exact ⟨fun hi => heapInv_allocate _ _ hi, rfl⟩
        rw [if_neg h8] at h
        by_cases h9 : t = "BinOp"
        · rw [if_pos h9] at h
          cases cs with
          | nil => exact Except.noConfusion h
          | cons c0 cs1 =>
              cases cs1 with
              | nil => exact Except.noConfusion h
              | cons c1 cstl =>
                  rcases bindVal_ok h with ⟨σ1, w, hx, hσ, _⟩ | ⟨σ1, v1, hx, hk⟩
                  · subst hσ; exact IH1 _ _ _ _ hx
                  · have p1 : Pres σ σ1 := IH1 _ _ _ _ hx
                    try dsimp only [] at hk
                    cases hg1 : heapGet σ1.heap v1 with
                    | error e => rw [hg1] at hk; exact Except.noConfusion hk
                    | ok lv =>
                        rw [hg1] at hk
                        try dsimp only [] at hk
                        rcases bindVal_ok hk with ⟨σ3, w, hx2, hσ, _⟩ | ⟨σ3, v3, hx2, hk2⟩
                        · subst hσ; exact presTrans p1 (IH1 _ _ _ _ hx2)
                        · have p2 : Pres σ1 σ3 := IH1 _ _ _ _ hx2
                          try dsimp only [] at hk2
                          cases hg2 : heapGet σ3.heap v3 with
                          | error e => rw [hg2] at hk2; exact Except.noConfusion hk2
                          | ok rv =>
                              rw [hg2] at hk2
                              try dsimp only [] at hk2
                              cases val with
                              | vstr op =>
                                  rcases except_map_ok hk2 with ⟨wres, _, he⟩
                                  rw [← pair_fst_eq he]
                                  exact presTrans (presTrans p1 p2)
                                    ⟨fun hi => heapInv_allocate _ _ hi, rfl⟩
                              | vnone => exact Except.noConfusion hk2
                              | vbool b => exact Except.noConfusion hk2
                              | vpair a b => exact Except.noConfusion hk2
                              | vsig a b => exact Except.noConfusion hk2
        rw [if_neg h9] at h
        by_cases h10 : t = "UnaryOp"
        · rw [if_pos h10] at h
          cases cs with
          | nil => exact Except.noConfusion h
          | cons c0 cstl =>
              rcases bindVal_ok h with ⟨σ1, w, hx, hσ, _⟩ | ⟨σ1, v1, hx, hk⟩
              · subst hσ; exact IH1 _ _ _ _ hx
              · have p1 : Pres σ σ1 := IH1 _ _ _ _ hx
                try dsimp only [] at hk
                cases hg1 : heapGet σ1.heap v1 with
                | error e => rw [hg1] at hk; exact Except.noConfusion hk
                | ok lv =>
                    rw [hg1] at hk
                    try dsimp only [] at hk
                    cases val with
                    | vstr op =>
                        rcases except_map_ok hk with ⟨wres, _, he⟩
                        rw [← pair_fst_eq he]
                        exact presTrans p1 ⟨fun hi => heapInv_allocate _ _ hi, rfl⟩
                    | vnone => exact Except.noConfusion hk
                    | vbool b => exact Except.noConfusion hk
                    | vpair a b => exact Except.noConfusion hk
                    | vsig a b => exact Except.noConfusion hk
        rw [if_neg h10] at h
        by_cases h11 : t = "Function"
        · rw [if_pos h11] at h
          cases val with
          | vsig name params =>
              rcases except_map_ok h with ⟨σ1, hset, he⟩
              rcases current_env_set_pres hset with ⟨hh, hl⟩
              rw [← pair_fst_eq he]
              exact ⟨fun hi => by rw [hh]; exact hi, hl⟩
          | vnone => exact Except.noConfusion h
          | vstr s => exact Except.noConfusion h
          | vbool b => exact Except.noConfusion h
          | vpair a b => exact Except.noConfusion h
        rw [if_neg h11] at h
        by_cases h12 : t = "Return"
        · rw [if_pos h12] at h
          cases cs with
          | nil => exact Except.noConfusion h
          | cons c cstl =>
              rcases bindVal_ok h with ⟨σ1, w, hx, hσ, _⟩ | ⟨σ1, v1, hx, hk⟩
              · subst hσ; exact IH1 _ _ _ _ hx
              · have p1 : Pres σ σ1 := IH1 _ _ _ _ hx
                try dsimp only [] at hk
                rcases except_map_ok hk with ⟨wv, _, he⟩
                rw [← pair_fst_eq he]
                exact p1
        rw [if_neg h12] at h
        by_cases h13 : t = "Call"
        · rw [if_pos h13] at h
          cases hargs : evalArgs H fuel σ cs with
          | error e => rw [hargs] at h; exact Except.noConfusion h
          | ok p =>
              rw [hargs] at h
              obtain ⟨σ1, ar⟩ := p
              have p1 : Pres σ σ1 := IH3 _ _ _ _ hargs
              cases ar with
              | ret w =>
                  rcases ok_pair_inj h with ⟨he, _⟩
                  rw [← he]
                  exact p1
              | vals args =>
                  try dsimp only [] at h
                  split at h
                  · -- builtin dispatch
                    split at h
                    · rcases except_map_ok h with ⟨pb, hcb, he⟩
                      rw [← pair_fst_eq he]
                      obtain ⟨σb, vb⟩ := pb
                      exact presTrans p1 (callBuiltin_pres hcb)
                    · exact Except.noConfusion h
                  · -- user-defined function path
                    split at h
                    · exact Except.noConfusion h
                    · -- lookup succeeded
                      split at h
                      · -- fnNode
                        split at h
                        · -- f.type = "Function"
                          split at h
                          · -- vsig arm
                            split at h
                            · exact Except.noConfusion h
                            · -- arity matches
                              split at h
                              · exact Except.noConfusion h
                              · -- bindParams ok
                                rename_i σp hbp
                                split at h
                                · exact Except.noConfusion h
                                · -- body fell through with a value
                                  rename_i σ3 rres hbody
                                  rcases except_map_ok h with ⟨σ4, hpop, he⟩
                                  rcases pop_env_pres hpop with ⟨hh4, hl4⟩
                                  rw [← pair_fst_eq he]
                                  have p2 := bindParams_pres _ _ _ _ hbp
                                  have p3 := IH2 _ _ _ _ _ hbody
                                  have hlen1 := push_env_len σ1
                                  refine ⟨fun hi => ?_, ?_⟩
                                  · exact hh4 (p3.1 (p2.1 (p1.1 hi)))
                                  · show σ4.env_stack.length =
                                      σ.env_stack.length
                                    have e1 := p1.2
                                    have e2 := p2.2
                                    have e3 := p3.2
                                    omega
                                · -- body raised ReturnValue
                                  rename_i σ3 w hbody
                                  rcases except_map_ok h with ⟨σ4, hpop, he⟩
                                  rcases pop_env_pres hpop with ⟨hh4, hl4⟩
                                  rw [← pair_fst_eq he]
                                  have p2 := bindParams_pres _ _ _ _ hbp
                                  have p3 := IH2 _ _ _ _ _ hbody
                                  have hlen1 := push_env_len σ1
                                  refine ⟨fun hi => ?_, ?_⟩
                                  · exact heapInv_allocate _ _
                                      (hh4 (p3.1 (p2.1 (p1.1 hi))))
                                  · show σ4.env_stack.length =
                                      σ.env_stack.length
                                    have e1 := p1.2
                                    have e2 := p2.2
                                    have e3 := p3.2
                                    omega
                          · exact Except.noConfusion h
                        · exact Except.noConfusion h
                      · exact Except.noConfusion h
        rw [if_neg h13] at h
        exact Except.noConfusion h
      · -- evalStmts
        intro σ l last σ2 r h
        cases l with
        | nil =>
            rcases ok_pair_inj h with ⟨he, _⟩
            rw [← he]
            exact presRefl σ
        | cons stmt rest =>
            rw [evalStmts] at h
            cases hst : evalNode H fuel σ stmt with
            | error e => rw [hst] at h; exact Except.noConfusion h
            | ok p =>
                rw [hst] at h
                obtain ⟨σ1, res⟩ := p
                have p1 : Pres σ σ1 := IH1 _ _ _ _ hst
                cases res with
                | val v =>
                    exact presTrans p1 (IH2 _ _ _ _ _ h)
                | ret w =>
                    rcases ok_pair_inj h with ⟨he, _⟩
                    rw [← he]
                    exact p1
      · -- evalArgs
        intro σ l σ2 ar h
        cases l with
        | nil =>
            rcases ok_pair_inj h with ⟨he, _⟩
            rw [← he]
            exact presRefl σ
        | cons a rest =>
            rw [evalArgs] at h
            cases hst : evalNode H fuel σ a with
            | error e => rw [hst] at h; exact Except.noConfusion h
            | ok p =>
                rw [hst] at h
                obtain ⟨σ1, res⟩ := p
                have p1 : Pres σ σ1 := IH1 _ _ _ _ hst
                cases res with
                | val v =>
                    try dsimp only [] at h
                    cases hg : heapGet σ1.heap v with
                    | error e => rw [hg] at h; exact Except.noConfusion h
                    | ok w =>
                        rw [hg] at h
                        try dsimp only [] at h
                        cases hrest : evalArgs H fuel σ1 rest with
                        | error e => rw [hrest] at h; exact Except.noConfusion h
                        | ok p2 =>
                            rw [hrest] at h
                            try dsimp only [] at h
                            obtain ⟨σ3, ar2⟩ := p2
                            have pr : Pres σ1 σ3 := IH3 _ _ _ _ hrest
                            cases ar2 with
                            | vals ws =>
                                rcases ok_pair_inj h with ⟨he, _⟩
                                rw [← he]
                                exact presTrans p1 pr
                            | ret rw2 =>
                                rcases ok_pair_inj h with ⟨he, _⟩
                                rw [← he]
                                exact presTrans p1 pr
                | ret w =>
                    rcases ok_pair_inj h with ⟨he, _⟩
                    rw [← he]
                    exact p1

/-! ## Claim theorems (concrete) -/

/-- C3, counterexample: evaluating `1 - "a"` end to end fails with a
    host-level `TypeError` escaping the interpreter, which is not the
    language's `RuntimeError` kind — refuting the claim that incompatible
    operand kinds fail with a `RuntimeError`. -/
theorem C3_counterexample :
    evalSourceExpr defaultHost 99 "1 - \"a\"" =
      .error (.typeError "unsupported operand type(s) for -: 'int' and 'str'") ∧
    isRuntimeError (.typeError "unsupported operand type(s) for -: 'int' and 'str'") = false := by
  exact ⟨rfl, rfl⟩

/-- C3, amended: applying `-` to an integer and a string always fails, but
    with the host `TypeError` (naming the operator and both kinds), not with
    the language's `RuntimeError` class. -/
theorem C3_theorem (H : HostFns) (i : Int) (s : String) :
    pyBinOp H "-" (.vint i) (.vstr s) =
      .error (.typeError "unsupported operand type(s) for -: 'int' and 'str'") ∧
    isRuntimeError (.typeError "unsupported operand type(s) for -: 'int' and 'str'") = false :=
  ⟨rfl, rfl⟩

/-- C4, counterexample: `==` and `<` do not share a precedence (3 vs 4),
    and `a == b < c` parses as `a == (b < c)` — not the left-associated
    `(a == b) < c` the claim states. -/
theorem C4_counterexample :
    lexer "a == b < c" = .ok cexC4toks ∧
    expression cexC4toks 99 0 = .ok (.mk "BinOp" (.vstr "==")
      [.mk "Var" (.vstr "a") [],
       .mk "BinOp" (.vstr "<") [.mk "Var" (.vstr "b") [], .mk "Var" (.vstr "c") []]], 5) ∧
    get_precedence "==" ≠ get_precedence "<" :=
  ⟨rfl, rfl, by decide⟩

/-- C4, amended: the equality operators sit at precedence 3 and the
    relational operators at 4 (not all six equal); ties still associate
    left (`a < b > c` parses as `(a < b) > c`), so a mixed
    equality/relational chain like `a == b < c` parses as `a == (b < c)`
    because the relational operator binds tighter. -/
theorem C4_theorem :
    (get_precedence "==" = 3 ∧ get_precedence "!=" = 3) ∧
    (get_precedence "<" = 4 ∧ get_precedence ">" = 4 ∧
     get_precedence "<=" = 4 ∧ get_precedence ">=" = 4) ∧
    expression cexC4toks 99 0 = .ok (.mk "BinOp" (.vstr "==")
      [.mk "Var" (.vstr "a") [],
       .mk "BinOp" (.vstr "<") [.mk "Var" (.vstr "b") [], .mk "Var" (.vstr "c") []]], 5) ∧
    expression cexC4toks2 99 0 = .ok (.mk "BinOp" (.vstr ">")
      [.mk "BinOp" (.vstr "<") [.mk "Var" (.vstr "a") [], .mk "Var" (.vstr "b") []],
       .mk "Var" (.vstr "c") []], 5) :=
  ⟨⟨rfl, rfl⟩, ⟨rfl, rfl, rfl, rfl⟩, rfl, rfl⟩

/-- C5: the three end-to-end precedence/associativity results —
    `2 + 3 * 4` evaluates to 14, `10 - 2 - 3` to 5, and `1 || 0 && 0`
    to `true`. -/
theorem C5_theorem :
    evalSourceExpr defaultHost 99 "2 + 3 * 4" = .ok (.vint 14) ∧
    evalSourceExpr defaultHost 99 "10 - 2 - 3" = .ok (.vint 5) ∧
    evalSourceExpr defaultHost 99 "1 || 0 && 0" = .ok (.vbool true) :=
  ⟨rfl, rfl, rfl⟩

/-- C6: the failing input `fn f(a, a) {}` — the second parameter
    declaration raises a `SemanticError` that escapes the traversal
    instead of being accumulated, so `analyze` fails with an exception. -/
theorem C6_theorem :
    analyze 99 dupParamProg =
      .error (.sem ⟨"Variable 'a' already declared in this scope", none⟩) :=
  rfl

/-- C7, counterexample: for `let x = 1; x = "a";` the analyzer reports two
    errors naming `x` (the mutability error and a type-mismatch error),
    not exactly one. -/
theorem C7_counterexample :
    analyzeErrors 99 cexC7prog = some
      [⟨"Cannot assign to immutable variable 'x' (declared with 'let')", none⟩,
       ⟨"Type mismatch: cannot assign string to int variable 'x'", none⟩] ∧
    countNamedErrors
      [⟨"Cannot assign to immutable variable 'x' (declared with 'let')", none⟩,
       ⟨"Type mismatch: cannot assign string to int variable 'x'", none⟩] "x" = 2 ∧
    (2 : Nat) ≠ 1 :=
  ⟨rfl, rfl, by decide⟩

/-- C8, counterexample: calling `fn f() { mut x = 5; }` (body exhausted
    with no `return`) yields the value of the body's last statement — the
    heap object holding 5 — not a null/absent result. -/
theorem C8_counterexample :
    resultDeref (evalNode defaultHost 99 cexC8state cexC8call) =
      .ok (some (.vint 5)) ∧
    (some (Value.vint 5) : Option Value) ≠ none :=
  ⟨rfl, by decide⟩

/-- C9, counterexample: lexing `/*\n*/x` records the token `x` at
    line 1, column 6, but the true position of its first character
    (source index 5) is line 2, column 3 — the block comment's newline is
    not counted. -/
theorem C9_counterexample :
    lexer "/*\n*/x" = .ok [⟨"IDENT", "x", 1, 6⟩, ⟨"EOF", "", 1, 7⟩] ∧
    trueLC (List.take 5 "/*\n*/x".data) = (2, 3) ∧
    ((1, 6) : Nat × Nat) ≠ (2, 3) :=
  ⟨rfl, rfl, by decide⟩

/-- C10: `10-2;` lexes as Number 10, Number -2, `;` (the sign is absorbed
    into the second number token, no operator token), and parsing that
    token sequence as an expression consumes only the first number —
    no subtraction `BinOp` is built. -/
theorem C10_theorem :
    lexer "10-2;" = .ok
      [⟨"NUMBER", "10", 1, 1⟩, ⟨"NUMBER", "-2", 1, 3⟩,
       ⟨"SEP", ";", 1, 5⟩, ⟨"EOF", "", 1, 6⟩] ∧
    expression [⟨"NUMBER", "10", 1, 1⟩, ⟨"NUMBER", "-2", 1, 3⟩,
       ⟨"SEP", ";", 1, 5⟩, ⟨"EOF", "", 1, 6⟩] 99 0 =
      .ok (.mk "Number" (.vstr "10") [], 1) :=
  ⟨rfl, rfl⟩

/-- C1, counterexample: after evaluating
    `fn f(a) { a = a; } let x = f(1);` from a fresh state, the heap still
    holds id 0 (the argument literal) though nothing in the environment
    stack reaches it, while `x` is bound to id 1 which is no longer present
    in the heap — refuting both directions of the claimed invariant. -/
theorem C1_counterexample :
    afterEval (evalNode defaultHost 99 (initInterp []) leakProg)
      (fun σ => heapPresent σ 0 && !reachesId σ 0 &&
                reachesId σ 1 && !heapPresent σ 1) = true := by
  decide

theorem appendError_errors (st : SemSt) (msg : String) (l : Option Nat) :
    (appendError st msg l).errors = st.errors ++ [⟨msg, l⟩] := rfl

theorem declare_ok_errors {st : SemSt} {nm vt k : String} {l : Option Nat}
    {init : Bool} {st2 : SemSt} (h : declare st nm vt k l init = .ok st2) :
    st2.errors = st.errors := by
  unfold declare at h
  split at h
  · split at h
    · exact Except.noConfusion h
    · injection h with h1
      rw [← h1]
  · exact Except.noConfusion h

theorem declare_sem_inv {st : SemSt} {nm vt k : String} {l : Option Nat}
    {init : Bool} {e : SemanticError}
    (h : declare st nm vt k l init = .error (.sem e)) :
    e = ⟨"Variable '" ++ nm ++ "' already declared in this scope", l⟩ := by
  unfold declare at h
  split at h
  · split at h
    · injection h with h1
      injection h1 with h2
      exact h2.symm
    · exact Except.noConfusion h
  · injection h with h1
    exact SemExc.noConfusion h1

theorem declareParams_ok_errors :
    ∀ (ps : List String) (st : SemSt) {st2 : SemSt},
      declareParams st ps = .ok st2 → st2.errors = st.errors := by
  intro ps
  induction ps with
  | nil =>
      intro st st2 h
      injection h with h1
      rw [← h1]
  | cons p pstl ih =>
      intro st st2 h
      replace h := except_bind_ok h
      rcases h with ⟨st1, hd, h⟩
      exact (ih st1 h).trans (declare_ok_errors hd)

theorem exitScope_errors (st : SemSt) : (exitScope st).errors = st.errors := by
  unfold exitScope
  split
  · dsimp only []
    split
    · rfl
    · rfl
  · rfl

theorem countMut_append (a b : List SemanticError) :
    countMutErrors (a ++ b) = countMutErrors a + countMutErrors b := by
  unfold countMutErrors
  rw [List.filter_append, List.length_append]

theorem countMut_mut_let (nm : String) (l : Option Nat) :
    countMutErrors [⟨"Cannot assign to immutable variable '" ++ nm ++
      "' (declared with 'let')", l⟩] = 1 := rfl

theorem countMut_mut_const (nm : String) (l : Option Nat) :
    countMutErrors [⟨"Cannot assign to const variable '" ++ nm ++ "'", l⟩] =
      1 := rfl

theorem countMut_already (nm : String) (l : Option Nat) :
    countMutErrors [⟨"Variable '" ++ nm ++ "' already declared in this scope",
      l⟩] = 0 := rfl

theorem countMut_notDeclared (nm : String) (l : Option Nat) :
    countMutErrors [⟨"Variable '" ++ nm ++ "' not declared", l⟩] = 0 := rfl

theorem countMut_beforeInit (nm : String) (l : Option Nat) :
    countMutErrors [⟨"Variable '" ++ nm ++ "' used before initialization",
      l⟩] = 0 := rfl

theorem countMut_unknownFn (nm : String) (l : Option Nat) :
    countMutErrors [⟨"Unknown function '" ++ nm ++ "'", l⟩] = 0 := rfl

theorem countMut_unknownNode (t : String) (l : Option Nat) :
    countMutErrors [⟨"Unknown AST node type: " ++ t, l⟩] = 0 := rfl

theorem countMut_typeMismatch (rt vt nm : String) (l : Option Nat) :
    countMutErrors [⟨"Type mismatch: cannot assign " ++ rt ++ " to " ++ vt ++
      " variable '" ++ nm ++ "'", l⟩] = 0 := rfl

theorem foldl_lc_no_newline :
    ∀ (m : List Char) (lc : Nat × Nat), m.contains (Char.ofNat 10) = false →
      m.foldl (fun lc c => if c = (Char.ofNat 10) then (lc.1 + 1, 1)
        else (lc.1, lc.2 + 1)) lc = (lc.1, lc.2 + m.length) := by
  intro m
  induction m with
  | nil => intro lc h; simp
  | cons c ms ih =>
      intro lc h
      rw [List.contains_cons] at h
      rcases Bool.or_eq_false_iff.mp h with ⟨hc, hms⟩
      have hcne : ¬ (c = Char.ofNat 10) := by
        intro he; rw [he] at hc; simp at hc
      rw [List.foldl_cons]
      try dsimp only []
      rw [if_neg hcne]
      rw [ih _ hms]
      simp only [List.length_cons]
      have he2 : lc.2 + 1 + ms.length = lc.2 + (ms.length + 1) := by omega
      rw [he2]

theorem trueLC_append_no_newline (pre m : List Char)
    (h : m.contains (Char.ofNat 10) = false) :
    trueLC (pre ++ m) = ((trueLC pre).1, (trueLC pre).2 + m.length) := by
  unfold trueLC
  rw [List.foldl_append]
  exact foldl_lc_no_newline m _ h

theorem trueLC_append_newline (pre : List Char) :
    trueLC (pre ++ [Char.ofNat 10]) = ((trueLC pre).1 + 1, 1) := by
  unfold trueLC
  rw [List.foldl_append]
  simp

/-- The `NEWLINE` alternative is the only one emitting that kind, and it
    always matches exactly one newline character. -/
theorem scanToken_newline {cs m rest : List Char}
    (h : scanToken cs = some ("NEWLINE", m, rest)) : m = [Char.ofNat 10] := by
  unfold scanToken at h
  repeat' split at h
  all_goals simp_all

/-- The lexer agrees with the true-position lexer as long as every match is
    a newline or newline-free. -/
theorem lexAux_eq_lexTrueAux :
    ∀ (fuel : Nat) (cs pre : List Char) (acc : List Token),
      singleLine fuel cs = true →
      lexAux fuel cs (trueLC pre).1 (trueLC pre).2 acc =
        lexTrueAux fuel cs pre acc := by
  intro fuel
  induction fuel with
  | zero => intro cs pre acc hs; rfl
  | succ fuel ih =>
      intro cs pre acc hs
      unfold singleLine at hs
      cases hscan : scanToken cs with
      | none =>
          unfold lexAux lexTrueAux
          rw [hscan]
      | some t =>
          obtain ⟨kind, m, rest⟩ := t
          rw [hscan] at hs
          have hs2 : ((decide (kind = "NEWLINE") ||
              !(m.contains (Char.ofNat 10))) && singleLine fuel rest) = true :=
            hs
          rcases Bool.and_eq_true_iff.mp hs2 with ⟨hdis, hsl⟩
          have hl : lexAux (fuel + 1) cs (trueLC pre).1 (trueLC pre).2 acc =
              (if kind = "MISMATCH" then
                .error (.runtimeError ("Unexpected character '" ++
                  String.mk m ++ "' at line " ++ toString (trueLC pre).1 ++
                  ", column " ++ toString (trueLC pre).2))
              else
                lexAux fuel rest
                  (if kind = "NEWLINE" then (trueLC pre).1 + 1
                   else (trueLC pre).1)
                  ((if kind = "NEWLINE" then 0 else (trueLC pre).2) + m.length)
                  (acc ++ emitToken kind (String.mk m) (trueLC pre).1
                    (trueLC pre).2)) := by
            conv_lhs => rw [lexAux, hscan]
          have hr : lexTrueAux (fuel + 1) cs pre acc =
              (if kind = "MISMATCH" then
                .error (.runtimeError ("Unexpected character '" ++
                  String.mk m ++ "' at line " ++ toString (trueLC pre).1 ++
                  ", column " ++ toString (trueLC pre).2))
              else
                lexTrueAux fuel rest (pre ++ m)
                  (acc ++ emitToken kind (String.mk m) (trueLC pre).1
                    (trueLC pre).2)) := by
            conv_lhs => rw [lexTrueAux, hscan]
          rw [hl, hr]
          by_cases hmis : kind = "MISMATCH"
          · rw [if_pos hmis]
            rw [if_pos hmis]
          · rw [if_neg hmis]
            rw [if_neg hmis]
            by_cases hnl : kind = "NEWLINE"
            · subst hnl
              have hm : m = [Char.ofNat 10] := scanToken_newline hscan
              subst hm
              rw [if_pos rfl]
              rw [if_pos rfl]
              have hih := ih rest (pre ++ [Char.ofNat 10])
                (acc ++ emitToken "NEWLINE" (String.mk [Char.ofNat 10])
                  (trueLC pre).1 (trueLC pre).2) hsl
              rw [trueLC_append_newline] at hih
              simpa using hih
            · have hmc : m.contains (Char.ofNat 10) = false := by
                rcases Bool.or_eq_true_iff.mp hdis with hd | hd
                · exact absurd (of_decide_eq_true hd) hnl
                · simpa using hd
              rw [if_neg hnl]
              rw [if_neg hnl]
              have hih := ih rest (pre ++ m)
                (acc ++ emitToken kind (String.mk m) (trueLC pre).1
                  (trueLC pre).2) hsl
              rw [trueLC_append_no_newline _ _ hmc] at hih
              simpa using hih

/-- Error accounting for the analyzer traversal: a successful visit only
    appends to the error list, and — when the visited tree contains no
    `Assign` node — it appends no mutability error (no other visitor
    emits a message with the `Cannot assign to ` prefix). -/
theorem visitErrs (fuel : Nat) :
    (∀ st node st2, visit fuel st node = .ok st2 →
      (∃ add, st2.errors = st.errors ++ add) ∧
      (noAssign node = true →
        countMutErrors st2.errors = countMutErrors st.errors)) ∧
    (∀ st l st2, visitList fuel st l = .ok st2 →
      (∃ add, st2.errors = st.errors ++ add) ∧
      (noAssignList l = true →
        countMutErrors st2.errors = countMutErrors st.errors)) := by
  induction fuel with
  | zero =>
      constructor
      · intro st node st2 h; exact Except.noConfusion h
      · intro st l st2 h; exact Except.noConfusion h
  | succ fuel IH =>
      obtain ⟨IH1, IH2⟩ := IH
      constructor
      · intro st node st2 h
        obtain ⟨t, val, cs⟩ := node
        have hnaEq : ∀ hne : ¬ (strLower t = "assign"),
            noAssign (ASTNode.mk t val cs) = true →
              noAssignList cs = true := by
          intro hne hna
          unfold noAssign at hna
          rw [if_neg hne] at hna
          exact hna
        unfold visit at h
        dsimp only [ASTNode.type, ASTNode.value, ASTNode.children] at h
        by_cases hm1 : strLower t = "program"
        · rw [if_pos hm1] at h
          have hne : ¬ (strLower t = "assign") := by
            intro hc; rw [hm1] at hc; exact absurd hc (by decide)
          exact ⟨(IH2 _ _ _ h).1,
            fun hna => (IH2 _ _ _ h).2 (hnaEq hne hna)⟩
        rw [if_neg hm1] at h
        by_cases hm2 : strLower t = "vardecl"
        · rw [if_pos hm2] at h
          have hne : ¬ (strLower t = "assign") := by
            intro hc; rw [hm2] at hc; exact absurd hc (by decide)
          split at h
          · -- value unpacked as (kind, name)
            cases cs with
            | nil =>
                replace h := except_bind_ok h
                rcases h with ⟨st1, h1, h⟩
                have h1b : (Except.ok st : Except SemExc SemSt) = .ok st1 := h1
                injection h1b with he1
                subst he1
                replace h := except_bind_ok h
                rcases h with ⟨pr, h2, h⟩
                split at h
                · rename_i st3 hd
                  injection h with he
                  refine ⟨⟨[], ?_⟩, fun hna => ?_⟩
                  · rw [← he, declare_ok_errors hd]
                    simp
                  · rw [← he, declare_ok_errors hd]
                · rename_i e hd
                  injection h with he
                  refine ⟨⟨[e], by rw [← he]⟩, fun hna => ?_⟩
                  rw [← he]
                  show countMutErrors (st.errors ++ [e]) =
                    countMutErrors st.errors
                  rw [countMut_append, declare_sem_inv hd, countMut_already,
                    Nat.add_zero]
                · exact Except.noConfusion h
            | cons c rest2 =>
                replace h := except_bind_ok h
                rcases h with ⟨st1, h1, h⟩
                replace h := except_bind_ok h
                rcases h with ⟨pr, h2, h⟩
                rcases (IH1 _ _ _ h1).1 with ⟨add1, hadd1⟩
                have hmut1 : noAssignList (c :: rest2) = true →
                    countMutErrors st1.errors = countMutErrors st.errors := by
                  intro hcs
                  have hna2 : (noAssign c && noAssignList rest2) = true := hcs
                  exact (IH1 _ _ _ h1).2 (Bool.and_eq_true_iff.mp hna2).1
                split at h
                · rename_i st3 hd
                  injection h with he
                  refine ⟨⟨add1, ?_⟩, fun hna => ?_⟩
                  · rw [← he, declare_ok_errors hd]
                    exact hadd1
                  · rw [← he, declare_ok_errors hd]
                    exact hmut1 (hnaEq hne hna)
                · rename_i e hd
                  injection h with he
                  refine ⟨⟨add1 ++ [e], ?_⟩, fun hna => ?_⟩
                  · rw [← he]
                    show st1.errors ++ [e] = st.errors ++ (add1 ++ [e])
                    rw [hadd1, List.append_assoc]
                  · rw [← he]
                    show countMutErrors (st1.errors ++ [e]) =
                      countMutErrors st.errors
                    rw [countMut_append, declare_sem_inv hd, countMut_already,
                      Nat.add_zero]
                    exact hmut1 (hnaEq hne hna)
                · exact Except.noConfusion h
          · exact Except.noConfusion h
        rw [if_neg hm2] at h
        by_cases hm3 : strLower t = "assign"
        · rw [if_pos hm3] at h
          have hnaF : ¬ (noAssign (ASTNode.mk t val cs) = true) := by
            unfold noAssign
            rw [if_pos hm3]
            exact Bool.false_ne_true
          refine ⟨?_, fun hna => absurd hna hnaF⟩
          split at h
          · -- variable not declared
            injection h with he
            refine ⟨[⟨"Variable '" ++ nodeValStr val ++ "' not declared",
              none⟩], ?_⟩
            rw [← he, appendError_errors]
          · -- found: optional mutability error, then rhs traversal
            rename_i vi depth hpeq
            cases cs with
            | nil =>
                replace h := except_bind_ok h
                rcases h with ⟨st4, h4, h⟩
                injection h with he
                injection h4 with he4
                split at he4
                · split at he4
                  · refine ⟨[⟨"Cannot assign to const variable '" ++
                      nodeValStr val ++ "'", none⟩], ?_⟩
                    rw [← he, ← he4]
                    rfl
                  · refine ⟨[⟨"Cannot assign to immutable variable '" ++
                      nodeValStr val ++ "' (declared with 'let')", none⟩], ?_⟩
                    rw [← he, ← he4]
                    rfl
                · refine ⟨[], ?_⟩
                  rw [← he, ← he4]
                  simp
            | cons c rest2 =>
                replace h := except_bind_ok h
                rcases h with ⟨st3, h5, h⟩
                replace h := except_bind_ok h
                rcases h with ⟨pr2, h6, h⟩
                rcases (IH1 _ _ _ h5).1 with ⟨add2, hadd2⟩
                split at h
                · -- type-mismatch error appended
                  replace h := except_bind_ok h
                  rcases h with ⟨y, hy, h⟩
                  injection hy with hey
                  injection h with he
                  split at hadd2
                  · split at hadd2
                    · refine ⟨[⟨"Cannot assign to const variable '" ++
                        nodeValStr val ++ "'", none⟩] ++ add2 ++
                        [⟨"Type mismatch: cannot assign " ++ pr2.1 ++ " to " ++
                          vi.var_type ++ " variable '" ++ nodeValStr val ++
                          "'", none⟩], ?_⟩
                      rw [← he, ← hey]
                      show st3.errors ++ [_] = _
                      rw [hadd2]
                      show (st.errors ++ [_]) ++ add2 ++ [_] = _
                      simp [List.append_assoc]
                    · refine ⟨[⟨"Cannot assign to immutable variable '" ++
                        nodeValStr val ++ "' (declared with 'let')", none⟩] ++
                        add2 ++
                        [⟨"Type mismatch: cannot assign " ++ pr2.1 ++ " to " ++
                          vi.var_type ++ " variable '" ++ nodeValStr val ++
                          "'", none⟩], ?_⟩
                      rw [← he, ← hey]
                      show st3.errors ++ [_] = _
                      rw [hadd2]
                      show (st.errors ++ [_]) ++ add2 ++ [_] = _
                      simp [List.append_assoc]
                  · refine ⟨add2 ++
                      [⟨"Type mismatch: cannot assign " ++ pr2.1 ++ " to " ++
                        vi.var_type ++ " variable '" ++ nodeValStr val ++
                        "'", none⟩], ?_⟩
                    rw [← he, ← hey]
                    show st3.errors ++ [_] = _
                    rw [hadd2]
                    show st.errors ++ add2 ++ [_] = _
                    simp [List.append_assoc]
                · -- no type error
                  replace h := except_bind_ok h
                  rcases h with ⟨y, hy, h⟩
                  injection hy with hey
                  injection h with he
                  split at hadd2
                  · split at hadd2
                    · refine ⟨[⟨"Cannot assign to const variable '" ++
                        nodeValStr val ++ "'", none⟩] ++ add2, ?_⟩
                      rw [← he, ← hey]
                      show st3.errors = _
                      rw [hadd2]
                      show (st.errors ++ [_]) ++ add2 = _
                      simp [List.append_assoc]
                    · refine ⟨[⟨"Cannot assign to immutable variable '" ++
                        nodeValStr val ++ "' (declared with 'let')", none⟩] ++
                        add2, ?_⟩
                      rw [← he, ← hey]
                      show st3.errors = _
                      rw [hadd2]
                      show (st.errors ++ [_]) ++ add2 = _
                      simp [List.append_assoc]
                  · refine ⟨add2, ?_⟩
                    rw [← he, ← hey]
                    show st3.errors = _
                    rw [hadd2]
        rw [if_neg hm3] at h
        by_cases hm4 : strLower t = "var"
        · rw [if_pos hm4] at h
          split at h
          · injection h with he
            refine ⟨⟨[⟨"Variable '" ++ nodeValStr val ++ "' not declared",
              none⟩], by rw [← he, appendError_errors]⟩, fun hna => ?_⟩
            rw [← he, appendError_errors, countMut_append,
              countMut_notDeclared, Nat.add_zero]
          · split at h
            · injection h with he
              refine ⟨⟨[⟨"Variable '" ++ nodeValStr val ++
                "' used before initialization", none⟩],
                by rw [← he, appendError_errors]⟩, fun hna => ?_⟩
              rw [← he, appendError_errors, countMut_append,
                countMut_beforeInit, Nat.add_zero]
            · injection h with he
              refine ⟨⟨[], by rw [← he]; simp⟩, fun hna => by rw [← he]⟩
        rw [if_neg hm4] at h
        by_cases hm5 : strLower t = "binop"
        · rw [if_pos hm5] at h
          exact ⟨(IH2 _ _ _ h).1,
            fun hna => (IH2 _ _ _ h).2 (hnaEq hm3 hna)⟩
        rw [if_neg hm5] at h
        by_cases hm6 : strLower t = "unaryop"
        · rw [if_pos hm6] at h
          exact ⟨(IH2 _ _ _ h).1,
            fun hna => (IH2 _ _ _ h).2 (hnaEq hm3 hna)⟩
        rw [if_neg hm6] at h
        by_cases hm7 : strLower t = "call"
        · rw [if_pos hm7] at h
          try dsimp only [] at h
          split at h
          · exact ⟨(IH2 _ _ _ h).1,
              fun hna => (IH2 _ _ _ h).2 (hnaEq hm3 hna)⟩
          · split at h
            · -- known symbol: maybe "Unknown function" if not a function
              split at h
              · rcases (IH2 _ _ _ h).1 with ⟨addL, haddL⟩
                refine ⟨⟨[⟨"Unknown function '" ++ nodeValStr val ++ "'",
                    none⟩] ++ addL, ?_⟩, fun hna => ?_⟩
                · rw [haddL, appendError_errors, List.append_assoc]
                · have hM := (IH2 _ _ _ h).2 (hnaEq hm3 hna)
                  rw [appendError_errors, countMut_append,
                    countMut_unknownFn, Nat.add_zero] at hM
                  exact hM
              · rcases (IH2 _ _ _ h).1 with ⟨addL, haddL⟩
                refine ⟨⟨addL, by rw [haddL]⟩, fun hna => ?_⟩
                exact (IH2 _ _ _ h).2 (hnaEq hm3 hna)
            · rcases (IH2 _ _ _ h).1 with ⟨addL, haddL⟩
              refine ⟨⟨[⟨"Unknown function '" ++ nodeValStr val ++ "'",
                  none⟩] ++ addL, ?_⟩, fun hna => ?_⟩
              · rw [haddL, appendError_errors, List.append_assoc]
              · have hM := (IH2 _ _ _ h).2 (hnaEq hm3 hna)
                rw [appendError_errors, countMut_append,
                  countMut_unknownFn, Nat.add_zero] at hM
                exact hM
        rw [if_neg hm7] at h
        by_cases hm8 : strLower t = "number"
        · rw [if_pos hm8] at h
          injection h with he
          exact ⟨⟨[], by rw [← he]; simp⟩, fun _ => by rw [← he]⟩
        rw [if_neg hm8] at h
        by_cases hm9 : strLower t = "string"
        · rw [if_pos hm9] at h
          injection h with he
          exact ⟨⟨[], by rw [← he]; simp⟩, fun _ => by rw [← he]⟩
        rw [if_neg hm9] at h
        by_cases hm10 : strLower t = "bool"
        · rw [if_pos hm10] at h
          injection h with he
          exact ⟨⟨[], by rw [← he]; simp⟩, fun _ => by rw [← he]⟩
        rw [if_neg hm10] at h
        by_cases hm11 : strLower t = "function"
        · rw [if_pos hm11] at h
          split at h
          · split at h
            · -- function name declared successfully
              rename_i s2 hd
              replace h := except_bind_ok h
              rcases h with ⟨st1, h1, h⟩
              injection h1 with he1
              replace h := except_bind_ok h
              rcases h with ⟨st3, h3, h⟩
              replace h := except_bind_ok h
              rcases h with ⟨st4, h4, h⟩
              injection h with he
              have hps := declareParams_ok_errors _ _ h3
              rcases (IH2 _ _ _ h4).1 with ⟨addL, haddL⟩
              have hde := declare_ok_errors hd
              refine ⟨⟨addL, ?_⟩, fun hna => ?_⟩
              · rw [← he, exitScope_errors, haddL, hps]
                show st1.errors ++ addL = st.errors ++ addL
                rw [← he1, hde]
              · rw [← he, exitScope_errors, (IH2 _ _ _ h4).2 (hnaEq hm3 hna),
                  hps]
                show countMutErrors st1.errors = countMutErrors st.errors
                rw [← he1, hde]
            · -- duplicate function name: error appended, analysis continues
              rename_i e hd
              replace h := except_bind_ok h
              rcases h with ⟨st1, h1, h⟩
              injection h1 with he1
              replace h := except_bind_ok h
              rcases h with ⟨st3, h3, h⟩
              replace h := except_bind_ok h
              rcases h with ⟨st4, h4, h⟩
              injection h with he
              have hps := declareParams_ok_errors _ _ h3
              rcases (IH2 _ _ _ h4).1 with ⟨addL, haddL⟩
              refine ⟨⟨[e] ++ addL, ?_⟩, fun hna => ?_⟩
              · rw [← he, exitScope_errors, haddL, hps]
                show st1.errors ++ addL = st.errors ++ ([e] ++ addL)
                rw [← he1]
                show (st.errors ++ [e]) ++ addL = _
                rw [List.append_assoc]
              · rw [← he, exitScope_errors, (IH2 _ _ _ h4).2 (hnaEq hm3 hna),
                  hps]
                show countMutErrors st1.errors = countMutErrors st.errors
                rw [← he1]
                show countMutErrors (st.errors ++ [e]) =
                  countMutErrors st.errors
                rw [countMut_append, declare_sem_inv hd, countMut_already,
                  Nat.add_zero]
            · -- a host error escaping declare
              replace h := except_bind_ok h
              rcases h with ⟨st1, h1, h⟩
              exact Except.noConfusion h1
          · exact Except.noConfusion h
        rw [if_neg hm11] at h
        injection h with he
        refine ⟨⟨[⟨"Unknown AST node type: " ++ t, none⟩],
          by rw [← he, appendError_errors]⟩, fun hna => ?_⟩
        rw [← he, appendError_errors, countMut_append, countMut_unknownNode,
          Nat.add_zero]
      · intro st l st2 h
        cases l with
        | nil =>
            have hb : (Except.ok st : Except SemExc SemSt) = .ok st2 := h
            injection hb with he
            exact ⟨⟨[], by rw [← he]; simp⟩, fun _ => by rw [← he]⟩
        | cons c rest =>
            rw [visitList] at h
            replace h := except_bind_ok h
            rcases h with ⟨st1, h1, h⟩
            rcases (IH1 _ _ _ h1).1 with ⟨addA, haddA⟩
            rcases (IH2 _ _ _ h).1 with ⟨addB, haddB⟩
            refine ⟨⟨addA ++ addB,
              by rw [haddB, haddA, List.append_assoc]⟩, fun hna => ?_⟩
            have hna2 : (noAssign c && noAssignList rest) = true := hna
            rcases Bool.and_eq_true_iff.mp hna2 with ⟨hnc, hnr⟩
            rw [(IH2 _ _ _ h).2 hnr, (IH1 _ _ _ h1).2 hnc]

/-- C7 (amended): visiting an assignment to a variable found non-mutable
    reports the mutability error immediately — appended right after the
    pre-existing errors, with distinct messages for `const` and `let` —
    and, as long as the right-hand side contains no nested Assign, it is
    the only mutability error added.  (It need not be the only error
    naming the variable: `C7_counterexample` exhibits a second,
    type-mismatch error.) -/
theorem C7_theorem (fuel : Nat) (st : SemSt) (nm : String) (c : ASTNode)
    (vi : VariableInfo) (depth : Nat) (stf : SemSt)
    (hlk : (lookupScopes st.scopes nm).1 = some (vi, depth))
    (hmut : vi.is_mutable = false)
    (hna : noAssign c = true)
    (hv : visit (fuel + 1) st (.mk "Assign" (.vstr nm) [c]) = .ok stf) :
    stf.errors.take (st.errors.length + 1) = st.errors ++
      [⟨if vi.is_const then "Cannot assign to const variable '" ++ nm ++ "'"
        else "Cannot assign to immutable variable '" ++ nm ++
          "' (declared with 'let')", none⟩] ∧
    countMutErrors stf.errors = countMutErrors st.errors + 1 := by
  unfold visit at hv
  dsimp only [ASTNode.type, ASTNode.value, ASTNode.children] at hv
  rw [if_neg (by decide), if_neg (by decide), if_pos (by decide)] at hv
  split at hv
  · rename_i hpe
    have hpe2 : (lookupScopes st.scopes nm).1 = none := hpe
    rw [hlk] at hpe2
    exact Option.noConfusion hpe2
  · rename_i vi2 depth2 hpe
    have hpe2 : (lookupScopes st.scopes nm).1 = some (vi2, depth2) := hpe
    rw [hlk] at hpe2
    injection hpe2 with hpe3
    injection hpe3 with hq1 hq2
    subst hq1
    subst hq2
    replace hv := except_bind_ok hv
    rcases hv with ⟨st3, h5, hv⟩
    replace hv := except_bind_ok hv
    rcases hv with ⟨pr2, h6, hv⟩
    rw [hmut] at h5
    rw [if_pos (by decide)] at h5
    by_cases hc : vi.is_const = true
    · rw [if_pos hc] at h5
      rw [if_pos hc]
      rcases ((visitErrs fuel).1 _ _ _ h5).1 with ⟨add2, hadd2⟩
      have hmv := ((visitErrs fuel).1 _ _ _ h5).2 hna
      split at hv
      · replace hv := except_bind_ok hv
        rcases hv with ⟨y, hy, hv⟩
        injection hy with hey
        injection hv with he
        constructor
        · rw [← he, ← hey]
          show (st3.errors ++ [_]).take (st.errors.length + 1) = _
          rw [hadd2]
          show (((st.errors ++ [_]) ++ add2) ++ [_]).take
            (st.errors.length + 1) = _
          rw [List.append_assoc (st.errors ++ [_])]
          exact List.take_left' (by simp)
        · rw [← he, ← hey]
          show countMutErrors (st3.errors ++ [_]) = _
          rw [countMut_append, countMut_typeMismatch, Nat.add_zero, hmv]
          show countMutErrors (st.errors ++ [_]) = _
          rw [countMut_append, countMut_mut_const]
      · replace hv := except_bind_ok hv
        rcases hv with ⟨y, hy, hv⟩
        injection hy with hey
        injection hv with he
        constructor
        · rw [← he, ← hey]
          show st3.errors.take (st.errors.length + 1) = _
          rw [hadd2]
          show ((st.errors ++ [_]) ++ add2).take (st.errors.length + 1) = _
          exact List.take_left' (by simp)
        · rw [← he, ← hey]
          show countMutErrors st3.errors = _
          rw [hmv]
          show countMutErrors (st.errors ++ [_]) = _
          rw [countMut_append, countMut_mut_const]
    · rw [if_neg hc] at h5
      rw [if_neg hc]
      rcases ((visitErrs fuel).1 _ _ _ h5).1 with ⟨add2, hadd2⟩
      have hmv := ((visitErrs fuel).1 _ _ _ h5).2 hna
      split at hv
      · replace hv := except_bind_ok hv
        rcases hv with ⟨y, hy, hv⟩
        injection hy with hey
        injection hv with he
        constructor
        · rw [← he, ← hey]
          show (st3.errors ++ [_]).take (st.errors.length + 1) = _
          rw [hadd2]
          show (((st.errors ++ [_]) ++ add2) ++ [_]).take
            (st.errors.length + 1) = _
          rw [List.append_assoc (st.errors ++ [_])]
          exact List.take_left' (by simp)
        · rw [← he, ← hey]
          show countMutErrors (st3.errors ++ [_]) = _
          rw [countMut_append, countMut_typeMismatch, Nat.add_zero, hmv]
          show countMutErrors (st.errors ++ [_]) = _
          rw [countMut_append, countMut_mut_let]
      · replace hv := except_bind_ok hv
        rcases hv with ⟨y, hy, hv⟩
        injection hy with hey
        injection hv with he
        constructor
        · rw [← he, ← hey]
          show st3.errors.take (st.errors.length + 1) = _
          rw [hadd2]
          show ((st.errors ++ [_]) ++ add2).take (st.errors.length + 1) = _
          exact List.take_left' (by simp)
        · rw [← he, ← hey]
          show countMutErrors st3.errors = _
          rw [hmv]
          show countMutErrors (st.errors ++ [_]) = _
          rw [countMut_append, countMut_mut_let]

/-- C7 witness: assigning `"a"` to the let-declared `x : int` reports the
    let-flavoured mutability error first, and exactly one mutability error
    overall (the second error is the type mismatch). -/
theorem C7_witness :
    visit 99 cexC7st cexC7assign = .ok cexC7final ∧
    cexC7final.errors.take 1 =
      [⟨"Cannot assign to immutable variable 'x' (declared with 'let')",
        none⟩] ∧
    countMutErrors cexC7final.errors = 1 :=
  ⟨rfl,
   (C7_theorem 98 cexC7st "x" (.mk "String" (.vstr "\"a\"") [])
     cexC7vi 0 cexC7final rfl rfl rfl rfl).1,
   (C7_theorem 98 cexC7st "x" (.mk "String" (.vstr "\"a\"") [])
     cexC7vi 0 cexC7final rfl rfl rfl rfl).2⟩

/-- C9 (amended): each emitted token's recorded (line, column) equals the
    true position of the token's first character for every source in which
    each lexed match is either a newline or newline-free — i.e. provided no
    block comment or string literal spans multiple lines.  (The general
    claim is refuted by `C9_counterexample`: a match with an embedded
    newline advances only the column counter.) -/
theorem C9_theorem (code : String)
    (h : singleLine (code.length + 1) code.data = true) :
    lexer code = lexTrue code :=
  lexAux_eq_lexTrueAux (code.length + 1) code.data [] [] h

/-- C9 witness: a two-line source whose newline is its own match is lexed
    with true positions throughout. -/
theorem C9_witness :
    singleLine ("a;\nb;".length + 1) "a;\nb;".data = true ∧
    lexer "a;\nb;" = lexTrue "a;\nb;" :=
  ⟨rfl, C9_theorem "a;\nb;" rfl⟩

/-- C1 (amended): after any successful evaluation from a fresh interpreter
    state, the per-entry heap invariant holds — every id present in
    `memory` has a `ref_count` entry of at least 1.  (The reachability
    directions of the original claim are refuted by `C1_counterexample`.) -/
theorem C1_theorem (H : HostFns) (fuel : Nat) (stdin : List String)
    (prog : ASTNode) (σ2 : Interp) (r : Res)
    (h : evalNode H fuel (initInterp stdin) prog = .ok (σ2, r)) :
    HeapInv σ2.heap :=
  ((evalPres fuel H).1 (initInterp stdin) prog σ2 r h).1 (heapInv_init stdin)

/-- C1 witness: the leak program evaluates successfully and its final heap
    satisfies the per-entry invariant. -/
theorem C1_witness :
    evalNode defaultHost 99 (initInterp []) leakProg =
      .ok (leakFinal, .val (.objId 1)) ∧
    HeapInv leakFinal.heap :=
  ⟨rfl, C1_theorem defaultHost 99 [] leakProg leakFinal (.val (.objId 1)) rfl⟩

/-- C2: every evaluation of a `Call` node that completes leaves the
    environment-stack depth exactly as it found it — the frame pushed for a
    user-defined call is popped on both completion paths (body exhausted,
    and `ReturnValue` caught). -/
theorem C2_theorem (H : HostFns) (fuel : Nat) (σ : Interp) (node : ASTNode)
    (σ2 : Interp) (r : Res) (hty : node.type = "Call")
    (h : evalNode H fuel σ node = .ok (σ2, r)) :
    σ2.env_stack.length = σ.env_stack.length :=
  ((evalPres fuel H).1 σ node σ2 r h).2

/-- C2 witness: calling `fn f() { mut x = 5; }` from a one-frame state ends
    with exactly one frame again. -/
theorem C2_witness :
    evalNode defaultHost 99 cexC8state cexC8call =
      .ok (cexC8final, .val (.objId 0)) ∧
    cexC8final.env_stack.length = cexC8state.env_stack.length :=
  ⟨rfl, C2_theorem defaultHost 99 cexC8state cexC8call cexC8final
    (.val (.objId 0)) rfl rfl⟩

/-- C8 (amended): a user-defined call whose body completes by exhausting
    its statements yields the result of the body's last evaluated statement
    (`evalStmts` threads exactly `result = self.eval(stmt)` and starts from
    `None`), not an unconditional null/absent result. -/
theorem C8_theorem (H : HostFns) (fuel : Nat) (σ : Interp) (nm : String)
    (cs : List ASTNode) {σ1 σp σ3 σ4 : Interp} {f : ASTNode} {fname : String}
    {args : List Value} {params : List String} {r : EnvVal}
    (hargs : evalArgs H fuel σ cs = .ok (σ1, .vals args))
    (hnb : interpBuiltins.contains nm = false)
    (hlk : lookupVar σ1 (.vstr nm) = .ok (.fnNode f))
    (hft : f.type = "Function")
    (hfv : f.value = .vsig fname params)
    (har : params.length = args.length)
    (hbp : bindParams (push_env σ1) params args = .ok σp)
    (hbody : evalStmts H fuel σp f.children .pynone = .ok (σ3, .val r))
    (hpop : pop_env σ3 = .ok σ4) :
    evalNode H (fuel + 1) σ (.mk "Call" (.vstr nm) cs) = .ok (σ4, .val r) := by
  obtain ⟨ft, fv2, fcs⟩ := f
  dsimp only [ASTNode.type] at hft
  dsimp only [ASTNode.value] at hfv
  dsimp only [ASTNode.children] at hbody
  subst hft
  subst hfv
  unfold evalNode
  dsimp only [ASTNode.type, ASTNode.value, ASTNode.children]
  rw [if_neg (by decide), if_neg (by decide), if_neg (by decide),
      if_neg (by decide), if_neg (by decide), if_neg (by decide),
      if_neg (by decide), if_neg (by decide), if_neg (by decide),
      if_neg (by decide), if_neg (by decide), if_neg (by decide),
      if_pos rfl]
  rw [hargs]
  try dsimp only []
  rw [hnb]
  rw [if_neg Bool.false_ne_true]
  rw [hlk]
  try dsimp only []
  rw [if_pos rfl]
  try dsimp only []
  rw [if_neg (fun hc => hc har), hbp]
  try dsimp only []
  rw [hbody]
  try dsimp only []
  rw [hpop]
  rfl

/-- C8 witness: calling `fn f() { mut x = 5; }` yields the id allocated by
    the body's last statement, dereferencing to 5. -/
theorem C8_witness :
    evalNode defaultHost 99 cexC8state cexC8call =
      .ok (cexC8final, .val (.objId 0)) ∧
    heapGet cexC8final.heap (.objId 0) = .ok (.vint 5) :=
  ⟨C8_theorem defaultHost 98 cexC8state "f" [] rfl rfl rfl rfl rfl rfl rfl rfl
    rfl, rfl⟩

end Pylet

